import Mathlib

/-!
Shallow embedding of the keras-rl core training/evaluation loop
(`rl/core.py`: `Agent.fit`, `Agent.test`, and the abstract `Env`/`Agent`
interfaces), together with proofs of the behavioural claims about it.

Modelling conventions:
* observations and actions are `Nat`; rewards and metrics are `Int`
  (the loop only adds rewards, so exact integers model the accumulation);
* the environment and the agent are deterministic records of functions
  over explicit state types `σ` and `α` (stateful Python objects become
  explicit state passing);
* the process-wide random source (`np.random.randint`,
  `env.action_space.sample()`) is an explicit stream `rng : Nat → Nat`
  consumed at an explicit index, `randint v` at index `i` being `rng i % v`;
* every externally observable call (callback notifications, `env.reset`,
  `env.step`, `forward`, `backward`, the warm-up warning) is recorded in an
  event trace;
* the unbounded `while` of `fit` and the `while not done` of `test` are
  driven by explicit fuel; a run is `completed` when the loop exited
  through its own guard rather than by fuel exhaustion.
-/

/-- One observable event of a `fit`/`test` run.  `envStep`'s first argument
marks whether the step was one of the unrecorded random warm-up steps. -/
inductive Event where
  | trainBegin : Event
  | trainEnd : Event
  | episodeBegin (episode : Nat) : Event
  | episodeEnd (episode : Nat) (logs : List (String × Int)) : Event
  | stepBegin (episode_step : Nat) : Event
  | stepEnd (episode_step : Nat) : Event
  | envReset (observation : Nat) : Event
  | envStep (warmup : Bool) (action : Nat) (observation : Nat) (reward : Int) (done : Bool) : Event
  | agentForward (observation : Nat) (action : Nat) : Event
  | agentBackward (reward : Int) (terminal : Bool) : Event
  | warned : Event
  deriving Repr, DecidableEq

/-- Errors raised by `fit`/`test` before entering the loop:
the `RuntimeError` for an uncompiled agent (core.py lines 11-12, 107-108)
and the `ValueError` for `action_repetition < 1` (lines 13-14, 109-110). -/
inductive RlError where
  | notCompiled : RlError
  | invalidActionRepetition : RlError
  deriving Repr, DecidableEq

/-- Result of one `env.step(action)` call: the `(observation, reward, done,
info)` tuple (info dropped) plus the successor environment state. -/
structure StepResult (σ : Type) where
  observation : Nat
  reward : Int
  done : Bool
  state : σ

/-- Deterministic environment: `reset` and `step` of the `Env` contract. -/
structure Env (σ : Type) where
  reset : σ → Nat × σ
  step : σ → Nat → StepResult σ

/-- Deterministic agent: the abstract operations of `Agent` used by the
loop, with internal state `α` made explicit. -/
structure Agent (α : Type) where
  compiled : Bool
  forward : α → Nat → Nat × α
  backward : α → Int → Bool → Int × α
  reset_states : α → α

/-- The arguments of `Agent.fit` that drive the loop. -/
structure FitParams where
  nb_episodes : Option Nat
  nb_steps : Option Nat
  action_repetition : Nat
  nb_max_random_start_steps : Nat
  validation_size : Nat
  deriving Repr, DecidableEq

/-- The local variables of `Agent.fit`'s while loop (core.py lines 34-38)
plus the environment/agent state and the random-stream index. -/
structure FitConfig (σ α : Type) where
  episode : Nat
  step : Nat
  observation : Option Nat
  episode_reward : Option Int
  episode_step : Option Nat
  envState : σ
  agentState : α
  rngIndex : Nat

/-- Result of the repeated-action inner loop. -/
structure RepeatResult (σ : Type) where
  events : List Event
  observation : Nat
  reward : Int
  done : Bool
  state : σ

/-- The `for _ in xrange(action_repetition)` inner loop (core.py lines
70-76 in `fit`, 140-146 in `test`): apply `action` up to `k` times, sum the
rewards, stop at the first `done`. -/
def applyAction {σ : Type} (env : Env σ) : Nat → σ → Nat → Nat → RepeatResult σ
  | 0, s, _action, obs => ⟨[], obs, 0, false, s⟩
  | Nat.succ n, s, action, _obs =>
    let res := env.step s action
    if res.done then
      ⟨[Event.envStep false action res.observation res.reward true],
        res.observation, res.reward, true, res.state⟩
    else
      let rest := applyAction env n res.state action res.observation
      ⟨Event.envStep false action res.observation res.reward false :: rest.events,
        rest.observation, res.reward + rest.reward, rest.done, rest.state⟩

/-- Result of the random warm-up loop. -/
structure WarmupResult (σ : Type) where
  events : List Event
  observation : Nat
  state : σ
  rngIndex : Nat

/-- The `for _ in xrange(nb_random_start_steps)` warm-up loop (core.py
lines 53-58): take random actions; on `done`, warn, reset once and stop. -/
def warmupSteps {σ : Type} (env : Env σ) (rng : Nat → Nat) :
    Nat → σ → Nat → Nat → WarmupResult σ
  | 0, s, obs, i => ⟨[], obs, s, i⟩
  | Nat.succ n, s, _obs, i =>
    let action := rng i
    let res := env.step s action
    if res.done then
      let r2 := env.reset res.state
      ⟨[Event.envStep true action res.observation res.reward true,
          Event.warned, Event.envReset r2.1],
        r2.1, r2.2, i + 1⟩
    else
      let rest := warmupSteps env rng n res.state res.observation (i + 1)
      ⟨Event.envStep true action res.observation res.reward false :: rest.events,
        rest.observation, rest.state, rest.rngIndex⟩

/-- Start-of-episode block of `fit` (core.py lines 40-58), entered when
`observation is None`: notify `on_episode_begin`, zero the episode
counters, `reset_states`, `env.reset`, then perform
`0 if v == 0 else randint(v)` random warm-up steps (`randint` consumes one
value of the random stream and is only evaluated when `v ≠ 0`). -/
def episodeInit {σ α : Type} (env : Env σ) (agent : Agent α) (v : Nat)
    (rng : Nat → Nat) (c : FitConfig σ α) : List Event × FitConfig σ α :=
  let ag := agent.reset_states c.agentState
  let r0 := env.reset c.envState
  if v = 0 then
    ([Event.episodeBegin c.episode, Event.envReset r0.1],
      { c with episode_step := some 0, episode_reward := some 0,
               agentState := ag, envState := r0.2, observation := some r0.1 })
  else
    let n := rng c.rngIndex % v
    let w := warmupSteps env rng n r0.2 r0.1 (c.rngIndex + 1)
    (Event.episodeBegin c.episode :: Event.envReset r0.1 :: w.events,
      { c with episode_step := some 0, episode_reward := some 0,
               agentState := ag, envState := w.state,
               observation := some w.observation, rngIndex := w.rngIndex })

/-- One recorded step of `fit` (core.py lines 66-103): `on_step_begin`,
`forward`, repeated `env.step`, `backward`, reward accumulation,
`on_step_end`, counter increments, and on `done` the `on_episode_end`
notification with the episode logs followed by the reset of the episode
variables to `None`. -/
def fitStep {σ α : Type} (env : Env σ) (agent : Agent α) (P : FitParams)
    (c : FitConfig σ α) (obs : Nat) : List Event × FitConfig σ α :=
  let epStep := c.episode_step.getD 0
  let epRew := c.episode_reward.getD 0
  let fwd := agent.forward c.agentState obs
  let rep := applyAction env P.action_repetition c.envState fwd.1 obs
  let bwd := agent.backward fwd.2 rep.reward rep.done
  let epRew2 := epRew + rep.reward
  let preEvs : List Event :=
    Event.stepBegin epStep :: Event.agentForward obs fwd.1 :: rep.events
      ++ [Event.agentBackward rep.reward rep.done, Event.stepEnd epStep]
  let c1 : FitConfig σ α :=
    { c with agentState := bwd.2, envState := rep.state,
             observation := some rep.observation,
             episode_step := some (epStep + 1),
             episode_reward := some epRew2,
             step := c.step + 1 }
  if rep.done then
    (preEvs ++ [Event.episodeEnd c.episode
        [("episode_reward", epRew2),
         ("nb_episode_steps", Int.ofNat (epStep + 1)),
         ("nb_steps", Int.ofNat (c.step + 1))]],
      { c1 with episode := c.episode + 1, observation := none,
                episode_step := none, episode_reward := none })
  else
    (preEvs, c1)

/-- One iteration of `fit`'s while body: start a new episode first when
`observation is None` (the body then falls through into the step). -/
def fitBody {σ α : Type} (env : Env σ) (agent : Agent α) (P : FitParams)
    (rng : Nat → Nat) (c : FitConfig σ α) : List Event × FitConfig σ α :=
  match c.observation with
  | none =>
    let ini := episodeInit env agent P.nb_max_random_start_steps rng c
    match ini.2.observation with
    | some obs =>
      let st := fitStep env agent P ini.2 obs
      (ini.1 ++ st.1, st.2)
    | none => (ini.1, ini.2)
  | some obs => fitStep env agent P c obs

/-- The while-loop guard of `fit` (core.py line 39). -/
def fitGuard {σ α : Type} (P : FitParams) (c : FitConfig σ α) : Bool :=
  (match P.nb_episodes with
   | none => true
   | some n => decide (c.episode < n)) &&
  (match P.nb_steps with
   | none => true
   | some n => decide (c.step < n))

/-- Fuel-driven unfolding of `fit`'s while loop.  The final `Bool` is
`true` exactly when the loop exited through its guard (rather than by
running out of fuel). -/
def fitLoop {σ α : Type} (env : Env σ) (agent : Agent α) (P : FitParams)
    (rng : Nat → Nat) : Nat → FitConfig σ α → List Event × FitConfig σ α × Bool
  | 0, c => ([], c, !fitGuard P c)
  | Nat.succ fuel, c =>
    if fitGuard P c then
      let b := fitBody env agent P rng c
      let r := fitLoop env agent P rng fuel b.2
      (b.1 ++ r.1, r.2)
    else
      ([], c, true)

/-- Initial values of `fit`'s loop variables (core.py lines 34-38). -/
def initialFitConfig {σ α : Type} (s0 : σ) (a0 : α) : FitConfig σ α :=
  ⟨0, 0, none, none, none, s0, a0, 0⟩

/-- `Agent.fit` (core.py lines 9-104): precondition checks, then the
fuel-driven loop bracketed by `on_train_begin`/`on_train_end`
(`on_train_end` fires only if the loop completed). -/
def fit {σ α : Type} (env : Env σ) (agent : Agent α) (P : FitParams)
    (rng : Nat → Nat) (fuel : Nat) (s0 : σ) (a0 : α) :
    List Event × Except RlError (FitConfig σ α × Bool) :=
  if agent.compiled = false then
    ([], Except.error RlError.notCompiled)
  else if P.action_repetition < 1 then
    ([], Except.error RlError.invalidActionRepetition)
  else
    let r := fitLoop env agent P rng fuel (initialFitConfig s0 a0)
    (Event.trainBegin :: r.1 ++ (if r.2.2 then [Event.trainEnd] else []),
      Except.ok r.2)

/-- The `while not done` loop of one `test` episode (core.py lines
136-151), driven by fuel; returns the events, the final episode reward,
the final `episode_step`, and the final states, or `none` on fuel
exhaustion. -/
def testEpisode {σ α : Type} (env : Env σ) (agent : Agent α) (k : Nat) :
    Nat → Nat → Int → σ → α → Nat → Option (List Event × Int × Nat × σ × α)
  | 0, _, _, _, _, _ => none
  | Nat.succ fuel, epStep, epRew, s, ag, obs =>
    let fwd := agent.forward ag obs
    let rep := applyAction env k s fwd.1 obs
    let bwd := agent.backward fwd.2 rep.reward rep.done
    let evs : List Event :=
      Event.stepBegin epStep :: Event.agentForward obs fwd.1 :: rep.events
        ++ [Event.agentBackward rep.reward rep.done, Event.stepEnd epStep]
    if rep.done then
      some (evs, epRew + rep.reward, epStep + 1, rep.state, bwd.2)
    else
      match testEpisode env agent k fuel (epStep + 1) (epRew + rep.reward)
          rep.state bwd.2 rep.observation with
      | none => none
      | some (evs2, r, n, s2, ag2) => some (evs ++ evs2, r, n, s2, ag2)

/-- The `for episode in xrange(nb_episodes)` loop of `test` (core.py lines
124-156): each episode notifies `on_episode_begin`, resets, runs to its own
`done`, and notifies `on_episode_end` with logs `episode_reward` and
`nb_steps` (the per-episode step count). -/
def testEpisodes {σ α : Type} (env : Env σ) (agent : Agent α) (k fuel : Nat) :
    Nat → Nat → σ → α → Option (List Event × σ × α)
  | 0, _, s, ag => some ([], s, ag)
  | Nat.succ d, e, s, ag =>
    let ag0 := agent.reset_states ag
    let r0 := env.reset s
    match testEpisode env agent k fuel 0 0 r0.2 ag0 r0.1 with
    | none => none
    | some (evs, epRew, epStep, s2, ag2) =>
      match testEpisodes env agent k fuel d (e + 1) s2 ag2 with
      | none => none
      | some (evs2, s3, ag3) =>
        some ((Event.episodeBegin e :: Event.envReset r0.1 :: evs
            ++ [Event.episodeEnd e
                 [("episode_reward", epRew),
                  ("nb_steps", Int.ofNat epStep)]]) ++ evs2,
          s3, ag3)

/-- `Agent.test` (core.py lines 106-156): precondition checks, then
`nb_episodes` full episodes.  The `Bool` is `true` when every episode ran
to its own `done` within the fuel. -/
def test {σ α : Type} (env : Env σ) (agent : Agent α)
    (nbEpisodes k fuel : Nat) (s0 : σ) (a0 : α) :
    List Event × Except RlError Bool :=
  if agent.compiled = false then
    ([], Except.error RlError.notCompiled)
  else if k < 1 then
    ([], Except.error RlError.invalidActionRepetition)
  else
    match testEpisodes env agent k fuel nbEpisodes 0 s0 a0 with
    | none => ([], Except.ok false)
    | some (evs, _, _) => (evs, Except.ok true)

/-- Episode indices of the `on_episode_begin` notifications of a trace. -/
def epBeginIdxs : List Event → List Nat :=
  List.filterMap (fun e =>
    match e with
    | Event.episodeBegin i => some i
    | _ => none)

/-- Episode indices of the `on_episode_end` notifications of a trace. -/
def epEndIdxs : List Event → List Nat :=
  List.filterMap (fun e =>
    match e with
    | Event.episodeEnd i _ => some i
    | _ => none)

/-- Logs of the `on_episode_end` notifications of a trace, paired with
their episode index. -/
def epEndLogs : List Event → List (Nat × List (String × Int)) :=
  List.filterMap (fun e =>
    match e with
    | Event.episodeEnd i logs => some (i, logs)
    | _ => none)

/-- Whether an event is an `env.step` call. -/
def isEnvStepEv : Event → Bool
  | Event.envStep _ _ _ _ _ => true
  | _ => false

/-- Whether an event is a call into an `Env` method (`step` or `reset`). -/
def isEnvEvent : Event → Bool
  | Event.envStep _ _ _ _ _ => true
  | Event.envReset _ => true
  | _ => false

/-- Whether an event is a step-level callback notification or a
`backward` learning update. -/
def isStepCallbackOrBackward : Event → Bool
  | Event.stepBegin _ => true
  | Event.stepEnd _ => true
  | Event.agentBackward _ _ => true
  | _ => false

/-- The `done` flag of an `envStep` event (`false` for other events). -/
def eventDone : Event → Bool
  | Event.envStep _ _ _ _ d => d
  | _ => false

/-- Sum of the rewards of the `envStep` events of a trace. -/
def sumStepRewards : List Event → Int
  | [] => 0
  | Event.envStep _ _ _ r _ :: rest => r + sumStepRewards rest
  | _ :: rest => sumStepRewards rest

/-- Accumulator transition of the episode-reward scan: `on_episode_begin`
resets the running sum, a recorded (non-warm-up) `env.step` adds its
reward, everything else leaves it unchanged. -/
def epAcc1 (acc : Int) : Event → Int
  | Event.episodeBegin _ => 0
  | Event.envStep w _ _ r _ => if w then acc else acc + r
  | _ => acc

/-- Per-event check of the episode-reward scan: every `on_episode_end`
log must report `episode_reward` equal to the running sum of recorded
step rewards since the episode began. -/
def epOk1 (acc : Int) : Event → Bool
  | Event.episodeEnd _ logs => List.lookup "episode_reward" logs == some acc
  | _ => true

/-- Scan of a trace checking that every reported `episode_reward` equals
the sum of the non-warm-up `env.step` rewards of its own episode. -/
def epRewCheck : List Event → Int → Bool
  | [], _ => true
  | e :: rest, acc => epOk1 acc e && epRewCheck rest (epAcc1 acc e)

/-- Final accumulator of the episode-reward scan. -/
def epAccList : List Event → Int → Int
  | [], acc => acc
  | e :: rest, acc => epAccList rest (epAcc1 acc e)

/-- The callback objects appended by `fit`/`test` to the callbacks list
(modelled abstractly; `custom` stands for caller-provided callbacks). -/
inductive CallbackItem where
  | trainEpisodeLogger : CallbackItem
  | trainIntervalLogger (interval : Nat) : CallbackItem
  | visualizer : CallbackItem
  | testLogger : CallbackItem
  | custom (id : Nat) : CallbackItem
  deriving Repr, DecidableEq

/-- The loggers `fit` appends to its callbacks list (core.py lines
18-24): an episode or interval logger depending on `verbose`/`nb_episodes`,
then a visualizer when requested. -/
def fitLoggerAppends (nbEpisodes : Option Nat) (verbose log_interval : Nat)
    (visualize : Bool) : List CallbackItem :=
  (if 0 < verbose then
    (match nbEpisodes with
     | some _ => [CallbackItem.trainEpisodeLogger]
     | none => [CallbackItem.trainIntervalLogger log_interval])
   else []) ++ (if visualize then [CallbackItem.visualizer] else [])

/-- The loggers `test` appends to its callbacks list (core.py lines
114-116): always a test logger, then a visualizer when requested. -/
def testLoggerAppends (visualize : Bool) : List CallbackItem :=
  CallbackItem.testLogger :: (if visualize then [CallbackItem.visualizer] else [])

/-- The callback-list setup of `fit` under Python call semantics: the
parameter default `callbacks=[]` is a single shared list object, and
`callbacks += [...]` extends that object in place, so a call made without
an explicit `callbacks` argument both reads and mutates the shared
default.  The first component is the list the call actually uses; the
second is the default list object's contents after the call. -/
def fitCallbackSetup (defaultList : List CallbackItem)
    (explicit : Option (List CallbackItem)) (nbEpisodes : Option Nat)
    (verbose log_interval : Nat) (visualize : Bool) :
    List CallbackItem × List CallbackItem :=
  match explicit with
  | some l => (l ++ fitLoggerAppends nbEpisodes verbose log_interval visualize,
      defaultList)
  | none =>
    (defaultList ++ fitLoggerAppends nbEpisodes verbose log_interval visualize,
      defaultList ++ fitLoggerAppends nbEpisodes verbose log_interval visualize)

/-- The callback-list setup of `test` under the same Python call
semantics as `fitCallbackSetup` (core.py lines 106, 114-116). -/
def testCallbackSetup (defaultList : List CallbackItem)
    (explicit : Option (List CallbackItem)) (visualize : Bool) :
    List CallbackItem × List CallbackItem :=
  match explicit with
  | some l => (l ++ testLoggerAppends visualize, defaultList)
  | none =>
    (defaultList ++ testLoggerAppends visualize,
      defaultList ++ testLoggerAppends visualize)

/-- Contents of `fit`'s shared default callbacks list after `n` calls of
`fit` made without a `callbacks` argument (the list starts empty). -/
def fitDefaultListAfter (nbEpisodes : Option Nat) (verbose log_interval : Nat)
    (visualize : Bool) : Nat → List CallbackItem
  | 0 => []
  | Nat.succ n =>
    (fitCallbackSetup (fitDefaultListAfter nbEpisodes verbose log_interval visualize n)
      none nbEpisodes verbose log_interval visualize).2

/-- Contents of `test`'s shared default callbacks list after `n` calls of
`test` made without a `callbacks` argument. -/
def testDefaultListAfter (visualize : Bool) : Nat → List CallbackItem
  | 0 => []
  | Nat.succ n =>
    (testCallbackSetup (testDefaultListAfter visualize n) none visualize).2

/-- Concrete environment whose every `step` immediately reports `done`
with reward 1. -/
def doneEnv : Env Unit :=
  ⟨fun s => (0, s), fun s _a => ⟨0, 1, true, s⟩⟩

/-- Concrete environment with two-step episodes and reward 1 per step
(the end-to-end scenario of the specification). -/
def twoStepEnv : Env Nat :=
  ⟨fun _ => (0, 0),
   fun s _a => if s = 0 then ⟨1, 1, false, 1⟩ else ⟨0, 1, true, 0⟩⟩

/-- Concrete compiled agent that always plays action 0. -/
def constAgent : Agent Unit :=
  ⟨true, fun a _o => (0, a), fun a _r _t => (0, a), fun a => a⟩

/-- Concrete agent that has not been compiled. -/
def uncompiledAgent : Agent Unit :=
  ⟨false, fun a _o => (0, a), fun a _r _t => (0, a), fun a => a⟩

/-- Constant random stream. -/
def zeroRng : Nat → Nat := fun _ => 0

/-! ### Lemmas about the repeated-action inner loop -/

theorem sumStepRewards_nil : sumStepRewards [] = 0 := rfl

theorem sumStepRewards_cons_envStep (w : Bool) (a o : Nat) (r : Int) (d : Bool)
    (rest : List Event) :
    sumStepRewards (Event.envStep w a o r d :: rest) = r + sumStepRewards rest := rfl

theorem applyAction_zero {σ : Type} (env : Env σ) (s : σ) (a obs : Nat) :
    applyAction env 0 s a obs = ⟨[], obs, 0, false, s⟩ := rfl

theorem applyAction_succ_done {σ : Type} (env : Env σ) (n : Nat) (s : σ)
    (a obs : Nat) (h : (env.step s a).done = true) :
    applyAction env (n + 1) s a obs =
      ⟨[Event.envStep false a (env.step s a).observation (env.step s a).reward true],
        (env.step s a).observation, (env.step s a).reward, true,
        (env.step s a).state⟩ := by
  simp [applyAction, h]

theorem applyAction_succ_not_done {σ : Type} (env : Env σ) (n : Nat) (s : σ)
    (a obs : Nat) (h : (env.step s a).done = false) :
    applyAction env (n + 1) s a obs =
      ⟨Event.envStep false a (env.step s a).observation (env.step s a).reward false ::
          (applyAction env n (env.step s a).state a (env.step s a).observation).events,
        (applyAction env n (env.step s a).state a (env.step s a).observation).observation,
        (env.step s a).reward +
          (applyAction env n (env.step s a).state a (env.step s a).observation).reward,
        (applyAction env n (env.step s a).state a (env.step s a).observation).done,
        (applyAction env n (env.step s a).state a (env.step s a).observation).state⟩ := by
  simp [applyAction, h]

theorem applyAction_events_length_le {σ : Type} (env : Env σ) :
    ∀ (k : Nat) (s : σ) (a obs : Nat),
      (applyAction env k s a obs).events.length ≤ k := by
  intro k
  induction k with
  | zero => intro s a obs; simp [applyAction_zero]
  | succ n ih =>
    intro s a obs
    cases h : (env.step s a).done with
    | true => rw [applyAction_succ_done env n s a obs h]; simp
    | false =>
      rw [applyAction_succ_not_done env n s a obs h]
      simpa using Nat.succ_le_succ (ih _ _ _)

theorem applyAction_events_length_pos {σ : Type} (env : Env σ)
    (n : Nat) (s : σ) (a obs : Nat) :
    1 ≤ (applyAction env (n + 1) s a obs).events.length := by
  cases h : (env.step s a).done with
  | true => rw [applyAction_succ_done env n s a obs h]; simp
  | false => rw [applyAction_succ_not_done env n s a obs h]; simp

theorem applyAction_events_shape {σ : Type} (env : Env σ) :
    ∀ (k : Nat) (s : σ) (a obs : Nat) (e : Event),
      e ∈ (applyAction env k s a obs).events →
      ∃ o r d, e = Event.envStep false a o r d := by
  intro k
  induction k with
  | zero => intro s a obs e he; simp [applyAction_zero] at he
  | succ n ih =>
    intro s a obs e he
    cases h : (env.step s a).done with
    | true =>
      rw [applyAction_succ_done env n s a obs h] at he
      simp at he
      exact ⟨_, _, _, he⟩
    | false =>
      rw [applyAction_succ_not_done env n s a obs h] at he
      rcases List.mem_cons.mp he with h1 | h1
      · exact ⟨_, _, _, h1⟩
      · exact ih _ _ _ e h1

theorem applyAction_done_profile {σ : Type} (env : Env σ) :
    ∀ (k : Nat) (s : σ) (a obs : Nat),
      (applyAction env (k + 1) s a obs).events.map eventDone =
        List.replicate ((applyAction env (k + 1) s a obs).events.length - 1) false
          ++ [(applyAction env (k + 1) s a obs).done] := by
  intro k
  induction k with
  | zero =>
    intro s a obs
    cases h : (env.step s a).done with
    | true => rw [applyAction_succ_done env 0 s a obs h]; simp [eventDone]
    | false =>
      rw [applyAction_succ_not_done env 0 s a obs h]
      simp [applyAction_zero, eventDone]
  | succ n ih =>
    intro s a obs
    cases h : (env.step s a).done with
    | true => rw [applyAction_succ_done env (n + 1) s a obs h]; simp [eventDone]
    | false =>
      rw [applyAction_succ_not_done env (n + 1) s a obs h]
      have hpos := applyAction_events_length_pos env n
        (env.step s a).state a (env.step s a).observation
      rw [List.map_cons, ih (env.step s a).state a (env.step s a).observation]
      have hev : eventDone (Event.envStep false a (env.step s a).observation
          (env.step s a).reward false) = false := rfl
      rw [hev]
      have hlen : (applyAction env (n + 1) (env.step s a).state a
          (env.step s a).observation).events.length - 1 + 1 =
          (applyAction env (n + 1) (env.step s a).state a
            (env.step s a).observation).events.length :=
        Nat.succ_pred_eq_of_pos hpos
      simp only [List.length_cons, Nat.add_sub_cancel]
      conv_lhs => rw [← List.cons_append]
      rw [← List.replicate_succ, hlen]

theorem applyAction_measure {σ : Type} (env : Env σ) (μ : σ → Nat)
    (hterm : ∀ (s : σ) (a : Nat),
      (env.step s a).done = false → μ (env.step s a).state < μ s) :
    ∀ (k : Nat) (s : σ) (a obs : Nat),
      (applyAction env (k + 1) s a obs).done = false →
      μ (applyAction env (k + 1) s a obs).state < μ s := by
  intro k
  induction k with
  | zero =>
    intro s a obs hdone
    cases h : (env.step s a).done with
    | true => rw [applyAction_succ_done env 0 s a obs h] at hdone; simp at hdone
    | false =>
      rw [applyAction_succ_not_done env 0 s a obs h]
      simpa [applyAction_zero] using hterm s a h
  | succ n ih =>
    intro s a obs hdone
    cases h : (env.step s a).done with
    | true => rw [applyAction_succ_done env (n + 1) s a obs h] at hdone; simp at hdone
    | false =>
      rw [applyAction_succ_not_done env (n + 1) s a obs h] at hdone ⊢
      exact Nat.lt_trans (ih (env.step s a).state a (env.step s a).observation hdone)
        (hterm s a h)

theorem applyAction_reward_sum {σ : Type} (env : Env σ) :
    ∀ (k : Nat) (s : σ) (a obs : Nat),
      (applyAction env k s a obs).reward =
        sumStepRewards (applyAction env k s a obs).events := by
  intro k
  induction k with
  | zero => intro s a obs; simp [applyAction_zero, sumStepRewards_nil]
  | succ n ih =>
    intro s a obs
    cases h : (env.step s a).done with
    | true =>
      rw [applyAction_succ_done env n s a obs h]
      simp [sumStepRewards_cons_envStep, sumStepRewards_nil]
    | false =>
      rw [applyAction_succ_not_done env n s a obs h]
      simp only [sumStepRewards_cons_envStep]
      rw [ih]

/-! ### Lemmas about the episode-reward scan and trace extractors -/

theorem epRewCheck_append (xs : List Event) :
    ∀ (ys : List Event) (acc : Int),
      epRewCheck (xs ++ ys) acc =
        (epRewCheck xs acc && epRewCheck ys (epAccList xs acc)) := by
  induction xs with
  | nil => intro ys acc; simp [epRewCheck, epAccList]
  | cons e rest ih =>
    intro ys acc
    simp only [List.cons_append, epRewCheck, epAccList, List.append_eq, ih,
      Bool.and_assoc]

theorem epAccList_append (xs : List Event) :
    ∀ (ys : List Event) (acc : Int),
      epAccList (xs ++ ys) acc = epAccList ys (epAccList xs acc) := by
  induction xs with
  | nil => intro ys acc; simp [epAccList]
  | cons e rest ih =>
    intro ys acc
    simp only [List.cons_append, epAccList, List.append_eq, ih]

theorem epAcc1_envStep_rec (acc : Int) (a o : Nat) (r : Int) (d : Bool) :
    epAcc1 acc (Event.envStep false a o r d) = acc + r := rfl

theorem epAcc1_envStep_warm (acc : Int) (a o : Nat) (r : Int) (d : Bool) :
    epAcc1 acc (Event.envStep true a o r d) = acc := rfl

theorem applyAction_epAccList {σ : Type} (env : Env σ) :
    ∀ (k : Nat) (s : σ) (a obs : Nat) (acc : Int),
      epAccList (applyAction env k s a obs).events acc =
        acc + (applyAction env k s a obs).reward := by
  intro k
  induction k with
  | zero => intro s a obs acc; simp [applyAction_zero, epAccList]
  | succ n ih =>
    intro s a obs acc
    cases h : (env.step s a).done with
    | true =>
      rw [applyAction_succ_done env n s a obs h]
      simp [epAccList, epAcc1_envStep_rec]
    | false =>
      rw [applyAction_succ_not_done env n s a obs h]
      simp only [epAccList, epAcc1_envStep_rec, ih]
      ring

theorem epRewCheck_of_no_episodeEnd (xs : List Event)
    (h : ∀ e ∈ xs, ∀ (i : Nat) (logs : List (String × Int)),
      e ≠ Event.episodeEnd i logs) :
    ∀ (acc : Int), epRewCheck xs acc = true := by
  induction xs with
  | nil => intro acc; rfl
  | cons e rest ih =>
    intro acc
    have h1 : epOk1 acc e = true := by
      cases e with
      | episodeEnd i logs => exact absurd rfl (h _ (List.mem_cons_self _ _) i logs)
      | _ => rfl
    simp only [epRewCheck, h1, Bool.true_and]
    exact ih (fun e he => h e (List.mem_cons_of_mem _ he)) _

theorem applyAction_epRewCheck {σ : Type} (env : Env σ) (k : Nat) (s : σ)
    (a obs : Nat) (acc : Int) :
    epRewCheck (applyAction env k s a obs).events acc = true := by
  apply epRewCheck_of_no_episodeEnd
  intro e he i logs
  obtain ⟨o, r, d, rfl⟩ := applyAction_events_shape env k s a obs e he
  simp

theorem epBeginIdxs_append (xs ys : List Event) :
    epBeginIdxs (xs ++ ys) = epBeginIdxs xs ++ epBeginIdxs ys := by
  simp [epBeginIdxs, List.filterMap_append]

theorem epEndIdxs_append (xs ys : List Event) :
    epEndIdxs (xs ++ ys) = epEndIdxs xs ++ epEndIdxs ys := by
  simp [epEndIdxs, List.filterMap_append]

theorem epEndLogs_append (xs ys : List Event) :
    epEndLogs (xs ++ ys) = epEndLogs xs ++ epEndLogs ys := by
  simp [epEndLogs, List.filterMap_append]

theorem applyAction_epBeginIdxs {σ : Type} (env : Env σ) (k : Nat) (s : σ)
    (a obs : Nat) :
    epBeginIdxs (applyAction env k s a obs).events = [] := by
  rw [epBeginIdxs, List.filterMap_eq_nil_iff]
  intro e he
  obtain ⟨o, r, d, rfl⟩ := applyAction_events_shape env k s a obs e he
  rfl

theorem applyAction_epEndIdxs {σ : Type} (env : Env σ) (k : Nat) (s : σ)
    (a obs : Nat) :
    epEndIdxs (applyAction env k s a obs).events = [] := by
  rw [epEndIdxs, List.filterMap_eq_nil_iff]
  intro e he
  obtain ⟨o, r, d, rfl⟩ := applyAction_events_shape env k s a obs e he
  rfl

theorem applyAction_no_train {σ : Type} (env : Env σ) (k : Nat) (s : σ)
    (a obs : Nat) :
    Event.trainBegin ∉ (applyAction env k s a obs).events ∧
    Event.trainEnd ∉ (applyAction env k s a obs).events := by
  constructor <;>
  · intro hmem
    obtain ⟨o, r, d, h⟩ := applyAction_events_shape env k s a obs _ hmem
    simp at h

/-! ### Lemmas about the warm-up loop -/

theorem warmupSteps_zero {σ : Type} (env : Env σ) (rng : Nat → Nat) (s : σ)
    (obs i : Nat) : warmupSteps env rng 0 s obs i = ⟨[], obs, s, i⟩ := rfl

theorem warmupSteps_succ_done {σ : Type} (env : Env σ) (rng : Nat → Nat)
    (n : Nat) (s : σ) (obs i : Nat) (h : (env.step s (rng i)).done = true) :
    warmupSteps env rng (n + 1) s obs i =
      ⟨[Event.envStep true (rng i) (env.step s (rng i)).observation
          (env.step s (rng i)).reward true, Event.warned,
          Event.envReset (env.reset (env.step s (rng i)).state).1],
        (env.reset (env.step s (rng i)).state).1,
        (env.reset (env.step s (rng i)).state).2, i + 1⟩ := by
  simp [warmupSteps, h]

theorem warmupSteps_succ_not_done {σ : Type} (env : Env σ) (rng : Nat → Nat)
    (n : Nat) (s : σ) (obs i : Nat) (h : (env.step s (rng i)).done = false) :
    warmupSteps env rng (n + 1) s obs i =
      ⟨Event.envStep true (rng i) (env.step s (rng i)).observation
          (env.step s (rng i)).reward false ::
          (warmupSteps env rng n (env.step s (rng i)).state
            (env.step s (rng i)).observation (i + 1)).events,
        (warmupSteps env rng n (env.step s (rng i)).state
          (env.step s (rng i)).observation (i + 1)).observation,
        (warmupSteps env rng n (env.step s (rng i)).state
          (env.step s (rng i)).observation (i + 1)).state,
        (warmupSteps env rng n (env.step s (rng i)).state
          (env.step s (rng i)).observation (i + 1)).rngIndex⟩ := by
  simp [warmupSteps, h]

theorem warmupSteps_events_shape {σ : Type} (env : Env σ) (rng : Nat → Nat) :
    ∀ (n : Nat) (s : σ) (obs i : Nat) (e : Event),
      e ∈ (warmupSteps env rng n s obs i).events →
      (∃ a o r d, e = Event.envStep true a o r d) ∨ e = Event.warned ∨
        ∃ o, e = Event.envReset o := by
  intro n
  induction n with
  | zero => intro s obs i e he; simp [warmupSteps_zero] at he
  | succ m ih =>
    intro s obs i e he
    cases h : (env.step s (rng i)).done with
    | true =>
      rw [warmupSteps_succ_done env rng m s obs i h] at he
      rcases List.mem_cons.mp he with rfl | he
      · exact Or.inl ⟨_, _, _, _, rfl⟩
      rcases List.mem_cons.mp he with rfl | he
      · exact Or.inr (Or.inl rfl)
      rcases List.mem_cons.mp he with rfl | he
      · exact Or.inr (Or.inr ⟨_, rfl⟩)
      · simp at he
    | false =>
      rw [warmupSteps_succ_not_done env rng m s obs i h] at he
      rcases List.mem_cons.mp he with rfl | he
      · exact Or.inl ⟨_, _, _, _, rfl⟩
      · exact ih _ _ _ e he

theorem warmupSteps_envStep_count {σ : Type} (env : Env σ) (rng : Nat → Nat) :
    ∀ (n : Nat) (s : σ) (obs i : Nat),
      (warmupSteps env rng n s obs i).events.countP isEnvStepEv ≤ n := by
  intro n
  induction n with
  | zero => intro s obs i; simp [warmupSteps_zero]
  | succ m ih =>
    intro s obs i
    cases h : (env.step s (rng i)).done with
    | true =>
      rw [warmupSteps_succ_done env rng m s obs i h]
      simp [List.countP_cons, isEnvStepEv]
    | false =>
      rw [warmupSteps_succ_not_done env rng m s obs i h]
      rw [List.countP_cons]
      have := ih (env.step s (rng i)).state (env.step s (rng i)).observation (i + 1)
      simp only [isEnvStepEv, if_true]
      omega

/-! ### Unfolding equations for the episode-start block and the step body -/

theorem episodeInit_zero_eq {σ α : Type} (env : Env σ) (agent : Agent α)
    (rng : Nat → Nat) (c : FitConfig σ α) :
    episodeInit env agent 0 rng c =
      ([Event.episodeBegin c.episode, Event.envReset (env.reset c.envState).1],
        { c with episode_step := some 0, episode_reward := some 0,
                 agentState := agent.reset_states c.agentState,
                 envState := (env.reset c.envState).2,
                 observation := some (env.reset c.envState).1 }) := rfl

theorem episodeInit_pos_eq {σ α : Type} (env : Env σ) (agent : Agent α)
    (v : Nat) (rng : Nat → Nat) (c : FitConfig σ α) (h : v ≠ 0) :
    episodeInit env agent v rng c =
      (Event.episodeBegin c.episode :: Event.envReset (env.reset c.envState).1 ::
          (warmupSteps env rng (rng c.rngIndex % v) (env.reset c.envState).2
            (env.reset c.envState).1 (c.rngIndex + 1)).events,
        { c with episode_step := some 0, episode_reward := some 0,
                 agentState := agent.reset_states c.agentState,
                 envState := (warmupSteps env rng (rng c.rngIndex % v)
                   (env.reset c.envState).2 (env.reset c.envState).1
                   (c.rngIndex + 1)).state,
                 observation := some (warmupSteps env rng (rng c.rngIndex % v)
                   (env.reset c.envState).2 (env.reset c.envState).1
                   (c.rngIndex + 1)).observation,
                 rngIndex := (warmupSteps env rng (rng c.rngIndex % v)
                   (env.reset c.envState).2 (env.reset c.envState).1
                   (c.rngIndex + 1)).rngIndex }) := by
  simp [episodeInit, h]

theorem episodeInit_observation_some {σ α : Type} (env : Env σ)
    (agent : Agent α) (v : Nat) (rng : Nat → Nat) (c : FitConfig σ α) :
    ∃ obs, (episodeInit env agent v rng c).2.observation = some obs := by
  by_cases h : v = 0
  · subst h; rw [episodeInit_zero_eq]; exact ⟨_, rfl⟩
  · rw [episodeInit_pos_eq env agent v rng c h]; exact ⟨_, rfl⟩

theorem episodeInit_fields {σ α : Type} (env : Env σ) (agent : Agent α)
    (v : Nat) (rng : Nat → Nat) (c : FitConfig σ α) :
    (episodeInit env agent v rng c).2.episode = c.episode ∧
    (episodeInit env agent v rng c).2.step = c.step ∧
    (episodeInit env agent v rng c).2.episode_reward = some 0 ∧
    (episodeInit env agent v rng c).2.episode_step = some 0 := by
  by_cases h : v = 0
  · subst h; rw [episodeInit_zero_eq]; exact ⟨rfl, rfl, rfl, rfl⟩
  · rw [episodeInit_pos_eq env agent v rng c h]; exact ⟨rfl, rfl, rfl, rfl⟩

theorem episodeInit_epBeginIdxs {σ α : Type} (env : Env σ) (agent : Agent α)
    (v : Nat) (rng : Nat → Nat) (c : FitConfig σ α) :
    epBeginIdxs (episodeInit env agent v rng c).1 = [c.episode] := by
  by_cases h : v = 0
  · subst h; rw [episodeInit_zero_eq]; rfl
  · rw [episodeInit_pos_eq env agent v rng c h]
    simp only [epBeginIdxs, List.filterMap_cons]
    rw [← epBeginIdxs]
    have : epBeginIdxs (warmupSteps env rng (rng c.rngIndex % v)
        (env.reset c.envState).2 (env.reset c.envState).1
        (c.rngIndex + 1)).events = [] := by
      rw [epBeginIdxs, List.filterMap_eq_nil_iff]
      intro e he
      rcases warmupSteps_events_shape env rng _ _ _ _ e he with
        ⟨a, o, r, d, rfl⟩ | rfl | ⟨o, rfl⟩ <;> rfl
    rw [this]

theorem episodeInit_epEndIdxs {σ α : Type} (env : Env σ) (agent : Agent α)
    (v : Nat) (rng : Nat → Nat) (c : FitConfig σ α) :
    epEndIdxs (episodeInit env agent v rng c).1 = [] := by
  by_cases h : v = 0
  · subst h; rw [episodeInit_zero_eq]; rfl
  · rw [episodeInit_pos_eq env agent v rng c h]
    simp only [epEndIdxs, List.filterMap_cons]
    rw [List.filterMap_eq_nil_iff.mpr]
    intro e he
    rcases warmupSteps_events_shape env rng _ _ _ _ e he with
      ⟨a, o, r, d, rfl⟩ | rfl | ⟨o, rfl⟩ <;> rfl

theorem episodeInit_no_train {σ α : Type} (env : Env σ) (agent : Agent α)
    (v : Nat) (rng : Nat → Nat) (c : FitConfig σ α) :
    Event.trainBegin ∉ (episodeInit env agent v rng c).1 ∧
    Event.trainEnd ∉ (episodeInit env agent v rng c).1 := by
  by_cases h : v = 0
  · subst h; rw [episodeInit_zero_eq]; simp
  · rw [episodeInit_pos_eq env agent v rng c h]
    constructor <;>
    · simp only [List.mem_cons]
      rintro (h1 | h1 | h1)
      · exact Event.noConfusion h1
      · exact Event.noConfusion h1
      · rcases warmupSteps_events_shape env rng _ _ _ _ _ h1 with
          ⟨a, o, r, d, h2⟩ | h2 | ⟨o, h2⟩ <;> exact Event.noConfusion h2

theorem fitStep_done_eq {σ α : Type} (env : Env σ) (agent : Agent α)
    (P : FitParams) (c : FitConfig σ α) (obs : Nat)
    (h : (applyAction env P.action_repetition c.envState
      (agent.forward c.agentState obs).1 obs).done = true) :
    fitStep env agent P c obs =
      (Event.stepBegin (c.episode_step.getD 0) ::
          Event.agentForward obs (agent.forward c.agentState obs).1 ::
          (applyAction env P.action_repetition c.envState
            (agent.forward c.agentState obs).1 obs).events ++
          [Event.agentBackward (applyAction env P.action_repetition c.envState
              (agent.forward c.agentState obs).1 obs).reward true,
            Event.stepEnd (c.episode_step.getD 0),
            Event.episodeEnd c.episode
              [("episode_reward", c.episode_reward.getD 0 +
                  (applyAction env P.action_repetition c.envState
                    (agent.forward c.agentState obs).1 obs).reward),
               ("nb_episode_steps", Int.ofNat (c.episode_step.getD 0 + 1)),
               ("nb_steps", Int.ofNat (c.step + 1))]],
        { c with episode := c.episode + 1, step := c.step + 1,
                 observation := none, episode_reward := none,
                 episode_step := none,
                 envState := (applyAction env P.action_repetition c.envState
                   (agent.forward c.agentState obs).1 obs).state,
                 agentState := (agent.backward (agent.forward c.agentState obs).2
                   (applyAction env P.action_repetition c.envState
                     (agent.forward c.agentState obs).1 obs).reward true).2 }) := by
  simp [fitStep, h]

theorem fitStep_not_done_eq {σ α : Type} (env : Env σ) (agent : Agent α)
    (P : FitParams) (c : FitConfig σ α) (obs : Nat)
    (h : (applyAction env P.action_repetition c.envState
      (agent.forward c.agentState obs).1 obs).done = false) :
    fitStep env agent P c obs =
      (Event.stepBegin (c.episode_step.getD 0) ::
          Event.agentForward obs (agent.forward c.agentState obs).1 ::
          (applyAction env P.action_repetition c.envState
            (agent.forward c.agentState obs).1 obs).events ++
          [Event.agentBackward (applyAction env P.action_repetition c.envState
              (agent.forward c.agentState obs).1 obs).reward false,
            Event.stepEnd (c.episode_step.getD 0)],
        { c with step := c.step + 1,
                 observation := some (applyAction env P.action_repetition
                   c.envState (agent.forward c.agentState obs).1 obs).observation,
                 episode_reward := some (c.episode_reward.getD 0 +
                   (applyAction env P.action_repetition c.envState
                     (agent.forward c.agentState obs).1 obs).reward),
                 episode_step := some (c.episode_step.getD 0 + 1),
                 envState := (applyAction env P.action_repetition c.envState
                   (agent.forward c.agentState obs).1 obs).state,
                 agentState := (agent.backward (agent.forward c.agentState obs).2
                   (applyAction env P.action_repetition c.envState
                     (agent.forward c.agentState obs).1 obs).reward false).2 }) := by
  simp [fitStep, h]

theorem fitBody_some_eq {σ α : Type} (env : Env σ) (agent : Agent α)
    (P : FitParams) (rng : Nat → Nat) (c : FitConfig σ α) (obs : Nat)
    (h : c.observation = some obs) :
    fitBody env agent P rng c = fitStep env agent P c obs := by
  simp [fitBody, h]

theorem fitBody_none_eq {σ α : Type} (env : Env σ) (agent : Agent α)
    (P : FitParams) (rng : Nat → Nat) (c : FitConfig σ α)
    (h : c.observation = none) :
    fitBody env agent P rng c =
      ((episodeInit env agent P.nb_max_random_start_steps rng c).1 ++
          (fitStep env agent P
            (episodeInit env agent P.nb_max_random_start_steps rng c).2
            ((episodeInit env agent P.nb_max_random_start_steps rng c).2.observation.getD 0)).1,
        (fitStep env agent P
          (episodeInit env agent P.nb_max_random_start_steps rng c).2
          ((episodeInit env agent P.nb_max_random_start_steps rng c).2.observation.getD 0)).2) := by
  obtain ⟨obs, hobs⟩ := episodeInit_observation_some env agent
    P.nb_max_random_start_steps rng c
  simp [fitBody, h, hobs]

theorem fitLoop_zero {σ α : Type} (env : Env σ) (agent : Agent α)
    (P : FitParams) (rng : Nat → Nat) (c : FitConfig σ α) :
    fitLoop env agent P rng 0 c = ([], c, !fitGuard P c) := rfl

theorem fitLoop_succ_guard_true {σ α : Type} (env : Env σ) (agent : Agent α)
    (P : FitParams) (rng : Nat → Nat) (fuel : Nat) (c : FitConfig σ α)
    (h : fitGuard P c = true) :
    fitLoop env agent P rng (fuel + 1) c =
      ((fitBody env agent P rng c).1 ++
          (fitLoop env agent P rng fuel (fitBody env agent P rng c).2).1,
        (fitLoop env agent P rng fuel (fitBody env agent P rng c).2).2) := by
  simp [fitLoop, h]

theorem fitLoop_succ_guard_false {σ α : Type} (env : Env σ) (agent : Agent α)
    (P : FitParams) (rng : Nat → Nat) (fuel : Nat) (c : FitConfig σ α)
    (h : fitGuard P c = false) :
    fitLoop env agent P rng (fuel + 1) c = ([], c, true) := by
  simp [fitLoop, h]

theorem fitGuard_no_steps {σ α : Type} (P : FitParams) (c : FitConfig σ α)
    (N : Nat) (hNE : P.nb_episodes = some N) (hNS : P.nb_steps = none) :
    fitGuard P c = decide (c.episode < N) := by
  simp [fitGuard, hNE, hNS]


theorem stepBlock_epAccList (t obs a : Nat) (revs : List Event) (rew : Int)
    (d : Bool) (acc : Int) (hrev : epAccList revs acc = acc + rew) :
    epAccList (Event.stepBegin t :: Event.agentForward obs a :: revs ++
      [Event.agentBackward rew d, Event.stepEnd t]) acc = acc + rew := by
  simp only [epAccList, epAcc1, List.append_eq]
  rw [epAccList_append, hrev]
  rfl

theorem stepBlock_epRewCheck (t obs a : Nat) (revs : List Event) (rew : Int)
    (d : Bool) (acc : Int) (hrev : epRewCheck revs acc = true)
    (hacc : epAccList revs acc = acc + rew) :
    epRewCheck (Event.stepBegin t :: Event.agentForward obs a :: revs ++
      [Event.agentBackward rew d, Event.stepEnd t]) acc = true := by
  simp only [epRewCheck, epOk1, epAcc1, List.append_eq, Bool.true_and]
  rw [epRewCheck_append, hrev, hacc]
  rfl

theorem fitStep_epBeginIdxs {σ α : Type} (env : Env σ) (agent : Agent α)
    (P : FitParams) (c : FitConfig σ α) (obs : Nat) :
    epBeginIdxs (fitStep env agent P c obs).1 = [] := by
  cases hrep : (applyAction env P.action_repetition c.envState
      (agent.forward c.agentState obs).1 obs).done with
  | true =>
    rw [fitStep_done_eq env agent P c obs hrep]
    simp only [epBeginIdxs, List.filterMap_cons, List.filterMap_append]
    rw [← epBeginIdxs, applyAction_epBeginIdxs]
    rfl
  | false =>
    rw [fitStep_not_done_eq env agent P c obs hrep]
    simp only [epBeginIdxs, List.filterMap_cons, List.filterMap_append]
    rw [← epBeginIdxs, applyAction_epBeginIdxs]
    rfl

theorem fitStep_epEndIdxs_done {σ α : Type} (env : Env σ) (agent : Agent α)
    (P : FitParams) (c : FitConfig σ α) (obs : Nat)
    (hrep : (applyAction env P.action_repetition c.envState
      (agent.forward c.agentState obs).1 obs).done = true) :
    epEndIdxs (fitStep env agent P c obs).1 = [c.episode] := by
  rw [fitStep_done_eq env agent P c obs hrep]
  simp only [epEndIdxs, List.filterMap_cons, List.filterMap_append]
  rw [← epEndIdxs, applyAction_epEndIdxs]
  rfl

theorem fitStep_epEndIdxs_not_done {σ α : Type} (env : Env σ) (agent : Agent α)
    (P : FitParams) (c : FitConfig σ α) (obs : Nat)
    (hrep : (applyAction env P.action_repetition c.envState
      (agent.forward c.agentState obs).1 obs).done = false) :
    epEndIdxs (fitStep env agent P c obs).1 = [] := by
  rw [fitStep_not_done_eq env agent P c obs hrep]
  simp only [epEndIdxs, List.filterMap_cons, List.filterMap_append]
  rw [← epEndIdxs, applyAction_epEndIdxs]
  rfl

theorem fitStep_no_train {σ α : Type} (env : Env σ) (agent : Agent α)
    (P : FitParams) (c : FitConfig σ α) (obs : Nat) :
    Event.trainBegin ∉ (fitStep env agent P c obs).1 ∧
    Event.trainEnd ∉ (fitStep env agent P c obs).1 := by
  cases hrep : (applyAction env P.action_repetition c.envState
      (agent.forward c.agentState obs).1 obs).done with
  | true =>
    rw [fitStep_done_eq env agent P c obs hrep]
    constructor <;>
    · intro hmem
      rcases List.mem_cons.mp hmem with h1 | hmem
      · exact Event.noConfusion h1
      rcases List.mem_cons.mp hmem with h1 | hmem
      · exact Event.noConfusion h1
      rcases List.mem_append.mp hmem with hmem | hmem
      · obtain ⟨o, r, d, h2⟩ := applyAction_events_shape env _ _ _ _ _ hmem
        exact Event.noConfusion h2
      · simp at hmem
  | false =>
    rw [fitStep_not_done_eq env agent P c obs hrep]
    constructor <;>
    · intro hmem
      rcases List.mem_cons.mp hmem with h1 | hmem
      · exact Event.noConfusion h1
      rcases List.mem_cons.mp hmem with h1 | hmem
      · exact Event.noConfusion h1
      rcases List.mem_append.mp hmem with hmem | hmem
      · obtain ⟨o, r, d, h2⟩ := applyAction_events_shape env _ _ _ _ _ hmem
        exact Event.noConfusion h2
      · simp at hmem

theorem fitStep_epRewCheck_done {σ α : Type} (env : Env σ) (agent : Agent α)
    (P : FitParams) (c : FitConfig σ α) (obs : Nat) (ρ : Int)
    (hρ : c.episode_reward = some ρ)
    (hrep : (applyAction env P.action_repetition c.envState
      (agent.forward c.agentState obs).1 obs).done = true) :
    epRewCheck (fitStep env agent P c obs).1 ρ = true := by
  rw [fitStep_done_eq env agent P c obs hrep]
  simp only [epRewCheck, epOk1, epAcc1, List.append_eq, Bool.true_and]
  rw [epRewCheck_append, applyAction_epRewCheck, applyAction_epAccList]
  simp [epRewCheck, epOk1, epAcc1, List.lookup, hρ]

theorem fitStep_epRewCheck_not_done {σ α : Type} (env : Env σ) (agent : Agent α)
    (P : FitParams) (c : FitConfig σ α) (obs : Nat) (ρ : Int)
    (hrep : (applyAction env P.action_repetition c.envState
      (agent.forward c.agentState obs).1 obs).done = false) :
    epRewCheck (fitStep env agent P c obs).1 ρ = true ∧
    epAccList (fitStep env agent P c obs).1 ρ =
      ρ + (applyAction env P.action_repetition c.envState
        (agent.forward c.agentState obs).1 obs).reward := by
  rw [fitStep_not_done_eq env agent P c obs hrep]
  constructor
  · exact stepBlock_epRewCheck _ _ _ _ _ _ _
      (applyAction_epRewCheck env _ _ _ _ _) (applyAction_epAccList env _ _ _ _ _)
  · exact stepBlock_epAccList _ _ _ _ _ _ _ (applyAction_epAccList env _ _ _ _ _)

/-- Mid-episode run of `fit`'s loop: from a configuration holding an
observation, with a strictly decreasing termination measure on the
environment, the loop reaches the end of the current episode after some
number of iterations, emitting exactly one `on_episode_end` (and no
`on_episode_begin`) whose `episode_reward` log checks out. -/
theorem fitLoop_episode_run {σ α : Type} (env : Env σ) (agent : Agent α)
    (P : FitParams) (rng : Nat → Nat) (μ : σ → Nat) (N : Nat)
    (hterm : ∀ (s : σ) (a : Nat),
      (env.step s a).done = false → μ (env.step s a).state < μ s)
    (hNE : P.nb_episodes = some N) (hNS : P.nb_steps = none)
    (hk : 1 ≤ P.action_repetition) :
    ∀ (m : Nat) (c : FitConfig σ α) (obs : Nat) (ρ : Int),
      μ c.envState ≤ m → c.observation = some obs →
      c.episode_reward = some ρ → c.episode < N →
      ∃ (n : Nat) (evs : List Event) (c2 : FitConfig σ α),
        (∀ fuel, fitLoop env agent P rng (n + fuel) c =
          (evs ++ (fitLoop env agent P rng fuel c2).1,
            (fitLoop env agent P rng fuel c2).2)) ∧
        c2.observation = none ∧ c2.episode = c.episode + 1 ∧
        epBeginIdxs evs = [] ∧ epEndIdxs evs = [c.episode] ∧
        Event.trainBegin ∉ evs ∧ Event.trainEnd ∉ evs ∧
        epRewCheck evs ρ = true := by
  obtain ⟨k0, hk0⟩ : ∃ k0, P.action_repetition = k0 + 1 :=
    ⟨P.action_repetition - 1, by omega⟩
  intro m
  induction m with
  | zero =>
    intro c obs ρ hμ hobs hρ hep
    have hguard : fitGuard P c = true := by
      rw [fitGuard_no_steps P c N hNE hNS]; simpa using hep
    have hrep : (applyAction env P.action_repetition c.envState
        (agent.forward c.agentState obs).1 obs).done = true := by
      by_contra hfalse
      have hf : (applyAction env (k0 + 1) c.envState
          (agent.forward c.agentState obs).1 obs).done = false := by
        rw [← hk0]; simpa using hfalse
      have := applyAction_measure env μ hterm k0 c.envState
        (agent.forward c.agentState obs).1 obs hf
      rw [← hk0] at this
      omega
    refine ⟨1, (fitStep env agent P c obs).1, (fitStep env agent P c obs).2,
      ?_, ?_, ?_, fitStep_epBeginIdxs env agent P c obs,
      fitStep_epEndIdxs_done env agent P c obs hrep,
      (fitStep_no_train env agent P c obs).1,
      (fitStep_no_train env agent P c obs).2,
      fitStep_epRewCheck_done env agent P c obs ρ hρ hrep⟩
    · intro fuel
      rw [Nat.add_comm 1 fuel, fitLoop_succ_guard_true env agent P rng fuel c hguard,
        fitBody_some_eq env agent P rng c obs hobs]
    · rw [fitStep_done_eq env agent P c obs hrep]
    · rw [fitStep_done_eq env agent P c obs hrep]
  | succ m ih =>
    intro c obs ρ hμ hobs hρ hep
    have hguard : fitGuard P c = true := by
      rw [fitGuard_no_steps P c N hNE hNS]; simpa using hep
    cases hrep : (applyAction env P.action_repetition c.envState
        (agent.forward c.agentState obs).1 obs).done with
    | true =>
      refine ⟨1, (fitStep env agent P c obs).1, (fitStep env agent P c obs).2,
        ?_, ?_, ?_, fitStep_epBeginIdxs env agent P c obs,
        fitStep_epEndIdxs_done env agent P c obs hrep,
        (fitStep_no_train env agent P c obs).1,
        (fitStep_no_train env agent P c obs).2,
        fitStep_epRewCheck_done env agent P c obs ρ hρ hrep⟩
      · intro fuel
        rw [Nat.add_comm 1 fuel, fitLoop_succ_guard_true env agent P rng fuel c hguard,
          fitBody_some_eq env agent P rng c obs hobs]
      · rw [fitStep_done_eq env agent P c obs hrep]
      · rw [fitStep_done_eq env agent P c obs hrep]
    | false =>
      have hμ2 : μ (applyAction env P.action_repetition c.envState
          (agent.forward c.agentState obs).1 obs).state ≤ m := by
        have h1 : (applyAction env (k0 + 1) c.envState
            (agent.forward c.agentState obs).1 obs).done = false := by
          rw [← hk0]; exact hrep
        have := applyAction_measure env μ hterm k0 c.envState
          (agent.forward c.agentState obs).1 obs h1
        rw [← hk0] at this
        omega
      obtain ⟨n2, evs2, c2, htrace, hc2obs, hc2ep, hbeg, hend, htb, hte, hrw⟩ :=
        ih (fitStep env agent P c obs).2
          (applyAction env P.action_repetition c.envState
            (agent.forward c.agentState obs).1 obs).observation
          (ρ + (applyAction env P.action_repetition c.envState
            (agent.forward c.agentState obs).1 obs).reward)
          (by rw [fitStep_not_done_eq env agent P c obs hrep]; exact hμ2)
          (by rw [fitStep_not_done_eq env agent P c obs hrep])
          (by rw [fitStep_not_done_eq env agent P c obs hrep]
              simp [hρ])
          (by rw [fitStep_not_done_eq env agent P c obs hrep]; exact hep)
      refine ⟨n2 + 1, (fitStep env agent P c obs).1 ++ evs2, c2, ?_, hc2obs, ?_,
        ?_, ?_, ?_, ?_, ?_⟩
      · intro fuel
        have hsum : n2 + 1 + fuel = (n2 + fuel) + 1 := by omega
        rw [hsum, fitLoop_succ_guard_true env agent P rng (n2 + fuel) c hguard,
          fitBody_some_eq env agent P rng c obs hobs, htrace fuel,
          List.append_assoc]
      · rw [hc2ep, fitStep_not_done_eq env agent P c obs hrep]
      · rw [epBeginIdxs_append, hbeg, fitStep_epBeginIdxs env agent P c obs]
        rfl
      · have hepeq : (fitStep env agent P c obs).2.episode = c.episode := by
          rw [fitStep_not_done_eq env agent P c obs hrep]
        rw [epEndIdxs_append, hend,
          fitStep_epEndIdxs_not_done env agent P c obs hrep, hepeq]
        rfl
      · intro hmem
        rcases List.mem_append.mp hmem with h1 | h1
        · exact (fitStep_no_train env agent P c obs).1 h1
        · exact htb h1
      · intro hmem
        rcases List.mem_append.mp hmem with h1 | h1
        · exact (fitStep_no_train env agent P c obs).2 h1
        · exact hte h1
      · rw [epRewCheck_append,
          (fitStep_epRewCheck_not_done env agent P c obs ρ hrep).1,
          (fitStep_epRewCheck_not_done env agent P c obs ρ hrep).2]
        simpa using hrw

theorem epScan_skip (evs : List Event)
    (h : ∀ e ∈ evs, (∀ acc, epAcc1 acc e = acc) ∧ (∀ acc, epOk1 acc e = true)) :
    ∀ acc, epRewCheck evs acc = true ∧ epAccList evs acc = acc := by
  induction evs with
  | nil => intro acc; exact ⟨rfl, rfl⟩
  | cons e rest ih =>
    intro acc
    have he := h e (List.mem_cons_self _ _)
    have hrest := ih (fun e2 he2 => h e2 (List.mem_cons_of_mem _ he2))
    constructor
    · simp only [epRewCheck, he.2, he.1, Bool.true_and]
      exact (hrest acc).1
    · simp only [epAccList, he.1]
      exact (hrest acc).2

theorem warmup_epScan {σ : Type} (env : Env σ) (rng : Nat → Nat) (n : Nat)
    (s : σ) (obs i : Nat) :
    ∀ acc, epRewCheck (warmupSteps env rng n s obs i).events acc = true ∧
      epAccList (warmupSteps env rng n s obs i).events acc = acc := by
  apply epScan_skip
  intro e he
  rcases warmupSteps_events_shape env rng n s obs i e he with
    ⟨a, o, r, d, rfl⟩ | rfl | ⟨o, rfl⟩
  · exact ⟨fun acc => rfl, fun acc => rfl⟩
  · exact ⟨fun acc => rfl, fun acc => rfl⟩
  · exact ⟨fun acc => rfl, fun acc => rfl⟩

theorem episodeInit_epScan {σ α : Type} (env : Env σ) (agent : Agent α)
    (v : Nat) (rng : Nat → Nat) (c : FitConfig σ α) :
    ∀ acc, epRewCheck (episodeInit env agent v rng c).1 acc = true ∧
      epAccList (episodeInit env agent v rng c).1 acc = 0 := by
  intro acc
  by_cases h : v = 0
  · subst h
    rw [episodeInit_zero_eq]
    exact ⟨rfl, rfl⟩
  · rw [episodeInit_pos_eq env agent v rng c h]
    constructor
    · simp only [epRewCheck, epOk1, epAcc1, Bool.true_and]
      exact (warmup_epScan env rng _ _ _ _ 0).1
    · simp only [epAccList, epAcc1]
      exact (warmup_epScan env rng _ _ _ _ 0).2

/-- One full episode of `fit`'s loop: from a configuration with no
observation (episode start) whose episode budget is not exhausted, the
loop runs the episode-start block and then steps until `done`, emitting
exactly one `on_episode_begin` and one `on_episode_end` for the current
episode index, and a correct `episode_reward` log. -/
theorem fitLoop_full_episode {σ α : Type} (env : Env σ) (agent : Agent α)
    (P : FitParams) (rng : Nat → Nat) (μ : σ → Nat) (N : Nat)
    (hterm : ∀ (s : σ) (a : Nat),
      (env.step s a).done = false → μ (env.step s a).state < μ s)
    (hNE : P.nb_episodes = some N) (hNS : P.nb_steps = none)
    (hk : 1 ≤ P.action_repetition) (c : FitConfig σ α)
    (hobs : c.observation = none) (hep : c.episode < N) :
    ∃ (n : Nat) (evs : List Event) (c2 : FitConfig σ α),
      (∀ fuel, fitLoop env agent P rng (n + fuel) c =
        (evs ++ (fitLoop env agent P rng fuel c2).1,
          (fitLoop env agent P rng fuel c2).2)) ∧
      c2.observation = none ∧ c2.episode = c.episode + 1 ∧
      epBeginIdxs evs = [c.episode] ∧ epEndIdxs evs = [c.episode] ∧
      Event.trainBegin ∉ evs ∧ Event.trainEnd ∉ evs ∧
      (∀ acc, epRewCheck evs acc = true) := by
  have hguard : fitGuard P c = true := by
    rw [fitGuard_no_steps P c N hNE hNS]; simpa using hep
  obtain ⟨obs0, hobs0⟩ := episodeInit_observation_some env agent
    P.nb_max_random_start_steps rng c
  have hgetD : (episodeInit env agent P.nb_max_random_start_steps rng c).2.observation.getD 0
      = obs0 := by rw [hobs0]; rfl
  obtain ⟨hf1, hf2, hf3, hf4⟩ := episodeInit_fields env agent
    P.nb_max_random_start_steps rng c
  have hgd : (episodeInit env agent P.nb_max_random_start_steps rng c).2.episode_reward.getD 0
      = 0 := by rw [hf3]; rfl
  cases hrep : (applyAction env P.action_repetition
      (episodeInit env agent P.nb_max_random_start_steps rng c).2.envState
      (agent.forward (episodeInit env agent P.nb_max_random_start_steps rng c).2.agentState obs0).1
      obs0).done with
  | true =>
    refine ⟨1,
      (episodeInit env agent P.nb_max_random_start_steps rng c).1 ++
        (fitStep env agent P
          (episodeInit env agent P.nb_max_random_start_steps rng c).2 obs0).1,
      (fitStep env agent P
        (episodeInit env agent P.nb_max_random_start_steps rng c).2 obs0).2,
      ?_, ?_, ?_, ?_, ?_, ?_, ?_, ?_⟩
    · intro fuel
      rw [Nat.add_comm 1 fuel, fitLoop_succ_guard_true env agent P rng fuel c hguard,
        fitBody_none_eq env agent P rng c hobs, hgetD, List.append_assoc]
    · rw [fitStep_done_eq env agent P _ obs0 hrep]
    · rw [fitStep_done_eq env agent P _ obs0 hrep]
      simp only [hf1]
    · rw [epBeginIdxs_append, episodeInit_epBeginIdxs,
        fitStep_epBeginIdxs env agent P _ obs0]
      rfl
    · rw [epEndIdxs_append, episodeInit_epEndIdxs,
        fitStep_epEndIdxs_done env agent P _ obs0 hrep, hf1]
      rfl
    · intro hmem
      rcases List.mem_append.mp hmem with h1 | h1
      · exact (episodeInit_no_train env agent _ rng c).1 h1
      · exact (fitStep_no_train env agent P _ obs0).1 h1
    · intro hmem
      rcases List.mem_append.mp hmem with h1 | h1
      · exact (episodeInit_no_train env agent _ rng c).2 h1
      · exact (fitStep_no_train env agent P _ obs0).2 h1
    · intro acc
      rw [epRewCheck_append, (episodeInit_epScan env agent _ rng c acc).1,
        (episodeInit_epScan env agent _ rng c acc).2,
        fitStep_epRewCheck_done env agent P _ obs0 0 hf3 hrep]
      rfl
  | false =>
    obtain ⟨nI, evsI, cC, htrI, hCobs, hCep, hbegI, hendI, htbI, hteI, hrwI⟩ :=
      fitLoop_episode_run env agent P rng μ N hterm hNE hNS hk
        (μ (fitStep env agent P
          (episodeInit env agent P.nb_max_random_start_steps rng c).2 obs0).2.envState)
        (fitStep env agent P
          (episodeInit env agent P.nb_max_random_start_steps rng c).2 obs0).2
        (applyAction env P.action_repetition
          (episodeInit env agent P.nb_max_random_start_steps rng c).2.envState
          (agent.forward (episodeInit env agent
            P.nb_max_random_start_steps rng c).2.agentState obs0).1 obs0).observation
        (0 + (applyAction env P.action_repetition
          (episodeInit env agent P.nb_max_random_start_steps rng c).2.envState
          (agent.forward (episodeInit env agent
            P.nb_max_random_start_steps rng c).2.agentState obs0).1 obs0).reward)
        (Nat.le_refl _)
        (by rw [fitStep_not_done_eq env agent P _ obs0 hrep])
        (by rw [fitStep_not_done_eq env agent P _ obs0 hrep, hgd])
        (by rw [fitStep_not_done_eq env agent P _ obs0 hrep]
            simpa [hf1] using hep)
    have hstep_ep : (fitStep env agent P
        (episodeInit env agent P.nb_max_random_start_steps rng c).2 obs0).2.episode
        = c.episode := by
      rw [fitStep_not_done_eq env agent P _ obs0 hrep, hf1]
    refine ⟨nI + 1,
      ((episodeInit env agent P.nb_max_random_start_steps rng c).1 ++
        (fitStep env agent P
          (episodeInit env agent P.nb_max_random_start_steps rng c).2 obs0).1) ++ evsI,
      cC, ?_, hCobs, ?_, ?_, ?_, ?_, ?_, ?_⟩
    · intro fuel
      have hsum : nI + 1 + fuel = (nI + fuel) + 1 := by omega
      rw [hsum, fitLoop_succ_guard_true env agent P rng (nI + fuel) c hguard,
        fitBody_none_eq env agent P rng c hobs, hgetD, htrI fuel]
      simp [List.append_assoc]
    · rw [hCep, hstep_ep]
    · rw [epBeginIdxs_append, epBeginIdxs_append, episodeInit_epBeginIdxs,
        fitStep_epBeginIdxs env agent P _ obs0, hbegI]
      rfl
    · rw [epEndIdxs_append, epEndIdxs_append, episodeInit_epEndIdxs,
        fitStep_epEndIdxs_not_done env agent P _ obs0 hrep, hendI, hstep_ep]
      rfl
    · intro hmem
      rcases List.mem_append.mp hmem with h1 | h1
      · rcases List.mem_append.mp h1 with h2 | h2
        · exact (episodeInit_no_train env agent _ rng c).1 h2
        · exact (fitStep_no_train env agent P _ obs0).1 h2
      · exact htbI h1
    · intro hmem
      rcases List.mem_append.mp hmem with h1 | h1
      · rcases List.mem_append.mp h1 with h2 | h2
        · exact (episodeInit_no_train env agent _ rng c).2 h2
        · exact (fitStep_no_train env agent P _ obs0).2 h2
      · exact hteI h1
    · intro acc
      rw [epRewCheck_append, epRewCheck_append,
        (episodeInit_epScan env agent _ rng c acc).1,
        (episodeInit_epScan env agent _ rng c acc).2,
        (fitStep_epRewCheck_not_done env agent P _ obs0 0 hrep).1,
        epAccList_append,
        (episodeInit_epScan env agent _ rng c acc).2,
        (fitStep_epRewCheck_not_done env agent P _ obs0 0 hrep).2, hrwI]
      rfl

/-- Full run of `fit`'s loop over the remaining `d` episodes: the loop
completes, emits `on_episode_begin`/`on_episode_end` exactly once per
episode index in increasing order, and every `episode_reward` log checks
out. -/
theorem fitLoop_episodes_run {σ α : Type} (env : Env σ) (agent : Agent α)
    (P : FitParams) (rng : Nat → Nat) (μ : σ → Nat) (N : Nat)
    (hterm : ∀ (s : σ) (a : Nat),
      (env.step s a).done = false → μ (env.step s a).state < μ s)
    (hNE : P.nb_episodes = some N) (hNS : P.nb_steps = none)
    (hk : 1 ≤ P.action_repetition) :
    ∀ (d : Nat) (c : FitConfig σ α),
      c.observation = none → c.episode + d = N →
      ∃ (n : Nat) (evs : List Event) (c2 : FitConfig σ α),
        (∀ fuel, fitLoop env agent P rng (n + fuel) c = (evs, c2, true)) ∧
        c2.episode = N ∧
        epBeginIdxs evs = List.range' c.episode d ∧
        epEndIdxs evs = List.range' c.episode d ∧
        Event.trainBegin ∉ evs ∧ Event.trainEnd ∉ evs ∧
        (∀ acc, epRewCheck evs acc = true) := by
  intro d
  induction d with
  | zero =>
    intro c hobs hN
    have hguard : fitGuard P c = false := by
      rw [fitGuard_no_steps P c N hNE hNS]
      simp
      omega
    refine ⟨0, [], c, ?_, by omega, rfl, rfl, by simp, by simp, fun acc => rfl⟩
    intro fuel
    cases fuel with
    | zero => rw [fitLoop_zero, hguard]; rfl
    | succ f => rw [Nat.zero_add, fitLoop_succ_guard_false env agent P rng f c hguard]
  | succ d ih =>
    intro c hobs hN
    have hep : c.episode < N := by omega
    obtain ⟨nE, evsE, cE, htrE, hEobs, hEep, hbegE, hendE, htbE, hteE, hrwE⟩ :=
      fitLoop_full_episode env agent P rng μ N hterm hNE hNS hk c hobs hep
    obtain ⟨nIH, evsIH, c2, htrIH, hc2, hbegIH, hendIH, htbIH, hteIH, hrwIH⟩ :=
      ih cE hEobs (by omega)
    refine ⟨nE + nIH, evsE ++ evsIH, c2, ?_, hc2, ?_, ?_, ?_, ?_, ?_⟩
    · intro fuel
      have hsum : nE + nIH + fuel = nE + (nIH + fuel) := by omega
      rw [hsum, htrE (nIH + fuel), htrIH fuel]
    · rw [epBeginIdxs_append, hbegE, hbegIH, hEep, List.range'_succ]
      rfl
    · rw [epEndIdxs_append, hendE, hendIH, hEep, List.range'_succ]
      rfl
    · intro hmem
      rcases List.mem_append.mp hmem with h1 | h1
      · exact htbE h1
      · exact htbIH h1
    · intro hmem
      rcases List.mem_append.mp hmem with h1 | h1
      · exact hteE h1
      · exact hteIH h1
    · intro acc
      rw [epRewCheck_append, hrwE acc, hrwIH]
      rfl

/-- C1: for every `N ≥ 1`, calling `fit` with `nb_episodes = N` (and
`nb_steps` unset) on a compiled agent, with an environment in which every
episode reaches `done` after finitely many steps (witnessed by a strictly
decreasing termination measure), invokes `on_episode_begin` and
`on_episode_end` exactly `N` times each with episode indices
`0, 1, ..., N-1` in strictly increasing order, and invokes
`on_train_begin` exactly once before the first `on_episode_begin` and
`on_train_end` exactly once after the last `on_episode_end`. -/
theorem fit_episode_callback_protocol {σ α : Type} (env : Env σ)
    (agent : Agent α) (μ : σ → Nat) (N k v vs : Nat) (rng : Nat → Nat)
    (s0 : σ) (a0 : α)
    (hterm : ∀ (s : σ) (a : Nat),
      (env.step s a).done = false → μ (env.step s a).state < μ s)
    (hcomp : agent.compiled = true) (hN : 1 ≤ N) (hk : 1 ≤ k) :
    ∃ (fuel : Nat) (evs : List Event) (cfg : FitConfig σ α),
      fit env agent ⟨some N, none, k, v, vs⟩ rng fuel s0 a0 =
        (Event.trainBegin :: (evs ++ [Event.trainEnd]),
          Except.ok (cfg, true)) ∧
      epBeginIdxs evs = List.range N ∧
      epEndIdxs evs = List.range N ∧
      Event.trainBegin ∉ evs ∧ Event.trainEnd ∉ evs := by
  obtain ⟨n, evs, c2, htr, hc2, hbeg, hend, htb, hte, hrw⟩ :=
    fitLoop_episodes_run env agent ⟨some N, none, k, v, vs⟩ rng μ N hterm
      rfl rfl hk N (initialFitConfig s0 a0) rfl (by simp [initialFitConfig])
  have hklt : ¬ ((⟨some N, none, k, v, vs⟩ : FitParams).action_repetition < 1) := by
    simp only [FitParams.mk.injEq]
    omega
  refine ⟨n + 0, evs, c2, ?_, ?_, ?_, htb, hte⟩
  · simp only [fit, hcomp, hklt, if_false]
    rw [htr 0]
    simp
  · rw [hbeg]
    have : (initialFitConfig s0 a0 : FitConfig σ α).episode = 0 := rfl
    rw [this]
    exact (List.range_eq_range' N).symm
  · rw [hend]
    have : (initialFitConfig s0 a0 : FitConfig σ α).episode = 0 := rfl
    rw [this]
    exact (List.range_eq_range' N).symm

theorem fit_episode_callback_protocol_witness :
    ∃ (fuel : Nat) (evs : List Event) (cfg : FitConfig Unit Unit),
      fit doneEnv constAgent ⟨some 2, none, 1, 0, 1000⟩ zeroRng fuel () () =
        (Event.trainBegin :: (evs ++ [Event.trainEnd]),
          Except.ok (cfg, true)) ∧
      epBeginIdxs evs = List.range 2 ∧
      epEndIdxs evs = List.range 2 ∧
      Event.trainBegin ∉ evs ∧ Event.trainEnd ∉ evs :=
  fit_episode_callback_protocol doneEnv constAgent (fun _ => 0) 2 1 0 1000
    zeroRng () () (fun s a h => by simp [doneEnv] at h) rfl
    (by decide) (by decide)

/-! ### Unfolding equations for the test loops -/

theorem testEpisode_succ_done {σ α : Type} (env : Env σ) (agent : Agent α)
    (k fuel t : Nat) (ρ : Int) (s : σ) (ag : α) (obs : Nat)
    (h : (applyAction env k s (agent.forward ag obs).1 obs).done = true) :
    testEpisode env agent k (fuel + 1) t ρ s ag obs =
      some (Event.stepBegin t ::
          Event.agentForward obs (agent.forward ag obs).1 ::
          (applyAction env k s (agent.forward ag obs).1 obs).events ++
          [Event.agentBackward
              (applyAction env k s (agent.forward ag obs).1 obs).reward true,
            Event.stepEnd t],
        ρ + (applyAction env k s (agent.forward ag obs).1 obs).reward,
        t + 1,
        (applyAction env k s (agent.forward ag obs).1 obs).state,
        (agent.backward (agent.forward ag obs).2
          (applyAction env k s (agent.forward ag obs).1 obs).reward true).2) := by
  simp [testEpisode, h]

theorem testEpisode_succ_not_done {σ α : Type} (env : Env σ) (agent : Agent α)
    (k fuel t : Nat) (ρ : Int) (s : σ) (ag : α) (obs : Nat)
    (h : (applyAction env k s (agent.forward ag obs).1 obs).done = false) :
    testEpisode env agent k (fuel + 1) t ρ s ag obs =
      (match testEpisode env agent k fuel (t + 1)
          (ρ + (applyAction env k s (agent.forward ag obs).1 obs).reward)
          (applyAction env k s (agent.forward ag obs).1 obs).state
          (agent.backward (agent.forward ag obs).2
            (applyAction env k s (agent.forward ag obs).1 obs).reward false).2
          (applyAction env k s (agent.forward ag obs).1 obs).observation with
        | none => none
        | some (evs2, r, n, s2, ag2) =>
          some ((Event.stepBegin t ::
              Event.agentForward obs (agent.forward ag obs).1 ::
              (applyAction env k s (agent.forward ag obs).1 obs).events ++
              [Event.agentBackward
                  (applyAction env k s (agent.forward ag obs).1 obs).reward false,
                Event.stepEnd t]) ++ evs2,
            r, n, s2, ag2)) := by
  simp [testEpisode, h]

/-- C2: for every `k ≥ 1`, in both `fit` and `test` with
`action_repetition = k`, each `forward` call is followed by at least one
and at most `k` `env.step` calls, all with the identical action returned
by that `forward` call; the repetition stops immediately after the first
`env.step` returning `done = true` (all earlier repetitions report
`done = false`); and the reward passed to the subsequent `backward` call
equals the sum of the rewards of exactly the `env.step` calls executed for
that `forward` call. -/
theorem action_repetition_contract {σ α : Type} (env : Env σ)
    (agent : Agent α) (k : Nat) (hk : 1 ≤ k) :
    (∀ (s : σ) (a obs : Nat),
      1 ≤ (applyAction env k s a obs).events.length ∧
      (applyAction env k s a obs).events.length ≤ k ∧
      (∀ e ∈ (applyAction env k s a obs).events,
        ∃ o r d, e = Event.envStep false a o r d) ∧
      (applyAction env k s a obs).events.map eventDone =
        List.replicate ((applyAction env k s a obs).events.length - 1) false
          ++ [(applyAction env k s a obs).done] ∧
      (applyAction env k s a obs).reward =
        sumStepRewards (applyAction env k s a obs).events) ∧
    (∀ (P : FitParams) (c : FitConfig σ α) (obs : Nat),
      P.action_repetition = k →
      ∃ tail, (fitStep env agent P c obs).1 =
        Event.stepBegin (c.episode_step.getD 0) ::
          Event.agentForward obs (agent.forward c.agentState obs).1 ::
          (applyAction env k c.envState (agent.forward c.agentState obs).1 obs).events ++
          (Event.agentBackward
              (applyAction env k c.envState
                (agent.forward c.agentState obs).1 obs).reward
              (applyAction env k c.envState
                (agent.forward c.agentState obs).1 obs).done ::
            Event.stepEnd (c.episode_step.getD 0) :: tail) ∧
        ∀ e ∈ tail, isEnvStepEv e = false ∧
          ∀ o2 a2, e ≠ Event.agentForward o2 a2) ∧
    (∀ (fuel t : Nat) (ρ : Int) (s : σ) (ag : α) (obs : Nat)
        (evs : List Event) (r : Int) (n : Nat) (s2 : σ) (ag2 : α),
      testEpisode env agent k (fuel + 1) t ρ s ag obs =
        some (evs, r, n, s2, ag2) →
      ∃ tail, evs =
        Event.stepBegin t ::
          Event.agentForward obs (agent.forward ag obs).1 ::
          (applyAction env k s (agent.forward ag obs).1 obs).events ++
          (Event.agentBackward
              (applyAction env k s (agent.forward ag obs).1 obs).reward
              (applyAction env k s (agent.forward ag obs).1 obs).done ::
            Event.stepEnd t :: tail)) := by
  obtain ⟨k0, hk0⟩ : ∃ k0, k = k0 + 1 := ⟨k - 1, by omega⟩
  refine ⟨?_, ?_, ?_⟩
  · intro s a obs
    subst hk0
    exact ⟨applyAction_events_length_pos env k0 s a obs,
      applyAction_events_length_le env (k0 + 1) s a obs,
      applyAction_events_shape env (k0 + 1) s a obs,
      applyAction_done_profile env k0 s a obs,
      applyAction_reward_sum env (k0 + 1) s a obs⟩
  · intro P c obs hPk
    subst hPk
    cases hrep : (applyAction env P.action_repetition c.envState
        (agent.forward c.agentState obs).1 obs).done with
    | true =>
      refine ⟨[Event.episodeEnd c.episode
          [("episode_reward", c.episode_reward.getD 0 +
              (applyAction env P.action_repetition c.envState
                (agent.forward c.agentState obs).1 obs).reward),
           ("nb_episode_steps", Int.ofNat (c.episode_step.getD 0 + 1)),
           ("nb_steps", Int.ofNat (c.step + 1))]], ?_, ?_⟩
      · rw [fitStep_done_eq env agent P c obs hrep]
      · intro e he
        rcases List.mem_singleton.mp he with rfl
        exact ⟨rfl, fun o2 a2 => Event.noConfusion⟩
    | false =>
      refine ⟨[], ?_, by simp⟩
      rw [fitStep_not_done_eq env agent P c obs hrep]
  · intro fuel t ρ s ag obs evs r n s2 ag2 htest
    cases hrep : (applyAction env k s (agent.forward ag obs).1 obs).done with
    | true =>
      rw [testEpisode_succ_done env agent k fuel t ρ s ag obs hrep] at htest
      simp only [Option.some.injEq, Prod.mk.injEq] at htest
      obtain ⟨h1, -⟩ := htest
      refine ⟨[], ?_⟩
      rw [← h1]
    | false =>
      rw [testEpisode_succ_not_done env agent k fuel t ρ s ag obs hrep] at htest
      cases hrec : testEpisode env agent k fuel (t + 1)
          (ρ + (applyAction env k s (agent.forward ag obs).1 obs).reward)
          (applyAction env k s (agent.forward ag obs).1 obs).state
          (agent.backward (agent.forward ag obs).2
            (applyAction env k s (agent.forward ag obs).1 obs).reward false).2
          (applyAction env k s (agent.forward ag obs).1 obs).observation with
      | none => rw [hrec] at htest; exact absurd htest (by simp)
      | some out =>
        obtain ⟨evs2, r2, n2, s3, ag3⟩ := out
        rw [hrec] at htest
        simp only [Option.some.injEq, Prod.mk.injEq] at htest
        obtain ⟨h1, -⟩ := htest
        refine ⟨evs2, ?_⟩
        rw [← h1]
        simp [List.append_assoc]

theorem action_repetition_contract_witness :
    1 ≤ (applyAction doneEnv 1 () 0 0).events.length ∧
    (applyAction doneEnv 1 () 0 0).events.length ≤ 1 ∧
    (∀ e ∈ (applyAction doneEnv 1 () 0 0).events,
      ∃ o r d, e = Event.envStep false 0 o r d) ∧
    (applyAction doneEnv 1 () 0 0).events.map eventDone =
      List.replicate ((applyAction doneEnv 1 () 0 0).events.length - 1) false
        ++ [(applyAction doneEnv 1 () 0 0).done] ∧
    (applyAction doneEnv 1 () 0 0).reward =
      sumStepRewards (applyAction doneEnv 1 () 0 0).events :=
  (action_repetition_contract doneEnv constAgent 1 (by decide)).1 () 0 0

theorem testEpisode_epScan {σ α : Type} (env : Env σ) (agent : Agent α)
    (k : Nat) :
    ∀ (fuel t : Nat) (ρ : Int) (s : σ) (ag : α) (obs : Nat)
      (evs : List Event) (r : Int) (n : Nat) (s2 : σ) (ag2 : α),
      testEpisode env agent k fuel t ρ s ag obs = some (evs, r, n, s2, ag2) →
      epRewCheck evs ρ = true ∧ epAccList evs ρ = r := by
  intro fuel
  induction fuel with
  | zero =>
    intro t ρ s ag obs evs r n s2 ag2 h
    exact absurd h (by simp [testEpisode])
  | succ fuel ih =>
    intro t ρ s ag obs evs r n s2 ag2 h
    cases hrep : (applyAction env k s (agent.forward ag obs).1 obs).done with
    | true =>
      rw [testEpisode_succ_done env agent k fuel t ρ s ag obs hrep] at h
      simp only [Option.some.injEq, Prod.mk.injEq] at h
      obtain ⟨h1, h2, -⟩ := h
      subst h1
      constructor
      · exact stepBlock_epRewCheck _ _ _ _ _ _ _
          (applyAction_epRewCheck env _ _ _ _ _)
          (applyAction_epAccList env _ _ _ _ _)
      · rw [stepBlock_epAccList _ _ _ _ _ _ _ (applyAction_epAccList env _ _ _ _ _)]
        exact h2
    | false =>
      rw [testEpisode_succ_not_done env agent k fuel t ρ s ag obs hrep] at h
      cases hrec : testEpisode env agent k fuel (t + 1)
          (ρ + (applyAction env k s (agent.forward ag obs).1 obs).reward)
          (applyAction env k s (agent.forward ag obs).1 obs).state
          (agent.backward (agent.forward ag obs).2
            (applyAction env k s (agent.forward ag obs).1 obs).reward false).2
          (applyAction env k s (agent.forward ag obs).1 obs).observation with
      | none => rw [hrec] at h; exact absurd h (by simp)
      | some out =>
        obtain ⟨evs2, r2, n2, s3, ag3⟩ := out
        rw [hrec] at h
        simp only [Option.some.injEq, Prod.mk.injEq] at h
        obtain ⟨h1, h2, -⟩ := h
        subst h1 h2
        obtain ⟨ihc, iha⟩ := ih _ _ _ _ _ _ _ _ _ _ hrec
        constructor
        · rw [epRewCheck_append,
            stepBlock_epRewCheck _ _ _ _ _ _ _
              (applyAction_epRewCheck env _ _ _ _ _)
              (applyAction_epAccList env _ _ _ _ _),
            stepBlock_epAccList _ _ _ _ _ _ _ (applyAction_epAccList env _ _ _ _ _),
            ihc]
          rfl
        · rw [epAccList_append,
            stepBlock_epAccList _ _ _ _ _ _ _ (applyAction_epAccList env _ _ _ _ _),
            iha]

theorem testEpisodes_zero {σ α : Type} (env : Env σ) (agent : Agent α)
    (k fuel e : Nat) (s : σ) (ag : α) :
    testEpisodes env agent k fuel 0 e s ag = some ([], s, ag) := rfl

theorem testEpisodes_succ_eq {σ α : Type} (env : Env σ) (agent : Agent α)
    (k fuel d e : Nat) (s : σ) (ag : α) :
    testEpisodes env agent k fuel (d + 1) e s ag =
      (match testEpisode env agent k fuel 0 0 (env.reset s).2
          (agent.reset_states ag) (env.reset s).1 with
        | none => none
        | some (evs, epRew, epStep, s2, ag2) =>
          match testEpisodes env agent k fuel d (e + 1) s2 ag2 with
          | none => none
          | some (evs2, s3, ag3) =>
            some ((Event.episodeBegin e :: Event.envReset (env.reset s).1 :: evs
                ++ [Event.episodeEnd e
                     [("episode_reward", epRew),
                      ("nb_steps", Int.ofNat epStep)]]) ++ evs2,
              s3, ag3)) := by
  simp [testEpisodes]

theorem testEpisodes_epScan {σ α : Type} (env : Env σ) (agent : Agent α)
    (k fuel : Nat) :
    ∀ (d e : Nat) (s : σ) (ag : α) (evs : List Event) (s2 : σ) (ag2 : α),
      testEpisodes env agent k fuel d e s ag = some (evs, s2, ag2) →
      ∀ acc, epRewCheck evs acc = true := by
  intro d
  induction d with
  | zero =>
    intro e s ag evs s2 ag2 h acc
    rw [testEpisodes_zero] at h
    simp only [Option.some.injEq, Prod.mk.injEq] at h
    obtain ⟨h1, -⟩ := h
    subst h1
    rfl
  | succ d ih =>
    intro e s ag evs s2 ag2 h acc
    rw [testEpisodes_succ_eq] at h
    cases hep : testEpisode env agent k fuel 0 0 (env.reset s).2
        (agent.reset_states ag) (env.reset s).1 with
    | none => rw [hep] at h; exact absurd h (by simp)
    | some out =>
      obtain ⟨evsE, epRew, epStep, sE, agE⟩ := out
      rw [hep] at h
      dsimp only at h
      cases hrec : testEpisodes env agent k fuel d (e + 1) sE agE with
      | none => rw [hrec] at h; exact absurd h (by simp)
      | some out2 =>
        obtain ⟨evs2, s3, ag3⟩ := out2
        rw [hrec] at h
        simp only [Option.some.injEq, Prod.mk.injEq] at h
        obtain ⟨h1, -⟩ := h
        subst h1
        obtain ⟨hc, ha⟩ := testEpisode_epScan env agent k fuel 0 0
          (env.reset s).2 (agent.reset_states ag) (env.reset s).1
          evsE epRew epStep sE agE hep
        rw [epRewCheck_append]
        have hblock : epRewCheck (Event.episodeBegin e ::
            Event.envReset (env.reset s).1 :: evsE ++
            [Event.episodeEnd e [("episode_reward", epRew),
              ("nb_steps", Int.ofNat epStep)]]) acc = true := by
          simp only [epRewCheck, epOk1, epAcc1, List.append_eq, Bool.true_and]
          rw [epRewCheck_append, hc, ha]
          simp [epRewCheck, epOk1, epAcc1, List.lookup]
        rw [hblock, ih (e + 1) sE agE evs2 s3 ag3 hrec]
        rfl

/-- C3: for every episode completed by `fit` or `test`, the
`episode_reward` value in the logs passed to `on_episode_end` equals the
exact sum of the per-step rewards accumulated during that episode (each
per-step reward itself the sum over the repeated `env.step` applications
of that step, which is what the recorded `envStep` events carry); rewards
from other episodes or from random warm-up steps are not included
(`epRewCheck` restarts its sum at each `on_episode_begin` and skips
warm-up steps). -/
theorem episode_reward_exact_sum {σ α : Type} (env : Env σ) (agent : Agent α)
    (μ : σ → Nat)
    (hterm : ∀ (s : σ) (a : Nat),
      (env.step s a).done = false → μ (env.step s a).state < μ s)
    (hcomp : agent.compiled = true) :
    (∀ (N k v vs : Nat) (rng : Nat → Nat) (s0 : σ) (a0 : α),
      1 ≤ N → 1 ≤ k →
      ∃ (fuel : Nat) (trace : List Event) (cfg : FitConfig σ α),
        fit env agent ⟨some N, none, k, v, vs⟩ rng fuel s0 a0 =
          (trace, Except.ok (cfg, true)) ∧
        epRewCheck trace 0 = true) ∧
    (∀ (nbEp k fuel : Nat) (s0 : σ) (a0 : α) (evs : List Event),
      test env agent nbEp k fuel s0 a0 = (evs, Except.ok true) →
      epRewCheck evs 0 = true) := by
  constructor
  · intro N k v vs rng s0 a0 hN hk
    obtain ⟨n, evs, c2, htr, hc2, hbeg, hend, htb, hte, hrw⟩ :=
      fitLoop_episodes_run env agent ⟨some N, none, k, v, vs⟩ rng μ N hterm
        rfl rfl hk N (initialFitConfig s0 a0) rfl (by simp [initialFitConfig])
    have hklt : ¬ ((⟨some N, none, k, v, vs⟩ : FitParams).action_repetition < 1) := by
      simp only [FitParams.mk.injEq]
      omega
    refine ⟨n + 0, Event.trainBegin :: (evs ++ [Event.trainEnd]), c2, ?_, ?_⟩
    · simp only [fit, hcomp, hklt, if_false]
      rw [htr 0]
      simp
    · simp only [epRewCheck, epOk1, epAcc1, Bool.true_and]
      rw [epRewCheck_append, hrw 0]
      rfl
  · intro nbEp k fuel s0 a0 evs h
    by_cases hklt : k < 1
    · simp [test, hcomp, hklt] at h
    · cases hte : testEpisodes env agent k fuel nbEp 0 s0 a0 with
      | none =>
        rw [test, if_neg (by simp [hcomp]), if_neg hklt, hte] at h
        simp at h
      | some out =>
        obtain ⟨evsT, sT, agT⟩ := out
        rw [test, if_neg (by simp [hcomp]), if_neg hklt, hte] at h
        simp only [Prod.mk.injEq] at h
        obtain ⟨h1, -⟩ := h
        subst h1
        exact testEpisodes_epScan env agent k fuel nbEp 0 s0 a0 _ sT agT hte 0

theorem episode_reward_exact_sum_witness :
    (∃ (fuel : Nat) (trace : List Event) (cfg : FitConfig Unit Unit),
      fit doneEnv constAgent ⟨some 1, none, 1, 0, 1000⟩ zeroRng fuel () () =
        (trace, Except.ok (cfg, true)) ∧
      epRewCheck trace 0 = true) ∧
    epRewCheck (test doneEnv constAgent 1 1 5 () ()).1 0 = true :=
  ⟨(episode_reward_exact_sum doneEnv constAgent (fun _ => 0)
      (fun s a h => by simp [doneEnv] at h) rfl).1 1 1 0 1000 zeroRng () ()
      (by decide) (by decide),
   (episode_reward_exact_sum doneEnv constAgent (fun _ => 0)
      (fun s a h => by simp [doneEnv] at h) rfl).2 1 1 5 () ()
      (test doneEnv constAgent 1 1 5 () ()).1 rfl⟩

/-- C4: at the start of every episode of `fit` (the block entered when
`observation is None`): with `nb_max_random_start_steps = 0` no `env.step`
call occurs between `env.reset()` and the first recorded step's `forward`
call; with a positive value `v` the number of warm-up `env.step` calls is
in `[0, v)`; warm-up steps never trigger `on_step_begin`/`on_step_end`,
never invoke `backward`, and contribute nothing to `episode_reward` or to
the global step count. -/
theorem random_warmup_contract {σ α : Type} (env : Env σ) (agent : Agent α)
    (P : FitParams) (rng : Nat → Nat) (c : FitConfig σ α) :
    (P.nb_max_random_start_steps = 0 →
      (episodeInit env agent P.nb_max_random_start_steps rng c).1 =
        [Event.episodeBegin c.episode,
          Event.envReset (env.reset c.envState).1]) ∧
    (0 < P.nb_max_random_start_steps →
      (episodeInit env agent P.nb_max_random_start_steps rng c).1.countP
        isEnvStepEv < P.nb_max_random_start_steps) ∧
    (∀ e ∈ (episodeInit env agent P.nb_max_random_start_steps rng c).1,
      isStepCallbackOrBackward e = false) ∧
    (episodeInit env agent P.nb_max_random_start_steps rng c).2.episode_reward
      = some 0 ∧
    (episodeInit env agent P.nb_max_random_start_steps rng c).2.step = c.step ∧
    (c.observation = none →
      fitBody env agent P rng c =
        ((episodeInit env agent P.nb_max_random_start_steps rng c).1 ++
            (fitStep env agent P
              (episodeInit env agent P.nb_max_random_start_steps rng c).2
              ((episodeInit env agent
                P.nb_max_random_start_steps rng c).2.observation.getD 0)).1,
          (fitStep env agent P
            (episodeInit env agent P.nb_max_random_start_steps rng c).2
            ((episodeInit env agent
              P.nb_max_random_start_steps rng c).2.observation.getD 0)).2)) := by
  refine ⟨?_, ?_, ?_,
    (episodeInit_fields env agent P.nb_max_random_start_steps rng c).2.2.1,
    (episodeInit_fields env agent P.nb_max_random_start_steps rng c).2.1,
    fitBody_none_eq env agent P rng c⟩
  · intro h0
    rw [h0, episodeInit_zero_eq]
  · intro hpos
    have hne : P.nb_max_random_start_steps ≠ 0 := by omega
    rw [episodeInit_pos_eq env agent P.nb_max_random_start_steps rng c hne]
    have hcount := warmupSteps_envStep_count env rng
      (rng c.rngIndex % P.nb_max_random_start_steps)
      (env.reset c.envState).2 (env.reset c.envState).1 (c.rngIndex + 1)
    have hmod : rng c.rngIndex % P.nb_max_random_start_steps
        < P.nb_max_random_start_steps := Nat.mod_lt _ hpos
    rw [List.countP_cons, List.countP_cons]
    simp only [isEnvStepEv, Bool.false_eq_true, if_false]
    omega
  · intro e he
    by_cases h0 : P.nb_max_random_start_steps = 0
    · rw [h0, episodeInit_zero_eq] at he
      rcases List.mem_cons.mp he with rfl | he
      · rfl
      rcases List.mem_cons.mp he with rfl | he
      · rfl
      · simp at he
    · rw [episodeInit_pos_eq env agent P.nb_max_random_start_steps rng c h0] at he
      rcases List.mem_cons.mp he with rfl | he
      · rfl
      rcases List.mem_cons.mp he with rfl | he
      · rfl
      rcases warmupSteps_events_shape env rng _ _ _ _ e he with
        ⟨a, o, r, d, rfl⟩ | rfl | ⟨o, rfl⟩ <;> rfl

theorem random_warmup_contract_witness :
    ((episodeInit doneEnv constAgent 0 zeroRng (initialFitConfig () ())).1 =
      [Event.episodeBegin 0, Event.envReset 0]) ∧
    ((episodeInit doneEnv constAgent 2 zeroRng
      (initialFitConfig () ())).1.countP isEnvStepEv < 2) :=
  ⟨(random_warmup_contract doneEnv constAgent ⟨some 1, none, 1, 0, 1000⟩
      zeroRng (initialFitConfig () ())).1 rfl,
   (random_warmup_contract doneEnv constAgent ⟨some 1, none, 1, 2, 1000⟩
      zeroRng (initialFitConfig () ())).2.1 (by decide)⟩

theorem epEndLogs_eq_nil (evs : List Event)
    (h : ∀ e ∈ evs, ∀ (i : Nat) (logs : List (String × Int)),
      e ≠ Event.episodeEnd i logs) :
    epEndLogs evs = [] := by
  rw [epEndLogs, List.filterMap_eq_nil_iff]
  intro e he
  cases e with
  | episodeEnd i logs => exact absurd rfl (h _ he i logs)
  | _ => rfl

theorem episodeInit_epEndLogs {σ α : Type} (env : Env σ) (agent : Agent α)
    (v : Nat) (rng : Nat → Nat) (c : FitConfig σ α) :
    epEndLogs (episodeInit env agent v rng c).1 = [] := by
  apply epEndLogs_eq_nil
  intro e he i logs
  by_cases h0 : v = 0
  · rw [h0, episodeInit_zero_eq] at he
    rcases List.mem_cons.mp he with rfl | he
    · exact Event.noConfusion
    rcases List.mem_cons.mp he with rfl | he
    · exact Event.noConfusion
    · simp at he
  · rw [episodeInit_pos_eq env agent v rng c h0] at he
    rcases List.mem_cons.mp he with rfl | he
    · exact Event.noConfusion
    rcases List.mem_cons.mp he with rfl | he
    · exact Event.noConfusion
    rcases warmupSteps_events_shape env rng _ _ _ _ e he with
      ⟨a, o, r, d, rfl⟩ | rfl | ⟨o, rfl⟩ <;> exact Event.noConfusion

theorem applyAction_epEndLogs {σ : Type} (env : Env σ) (k : Nat) (s : σ)
    (a obs : Nat) :
    epEndLogs (applyAction env k s a obs).events = [] := by
  apply epEndLogs_eq_nil
  intro e he i logs
  obtain ⟨o, r, d, rfl⟩ := applyAction_events_shape env k s a obs e he
  exact Event.noConfusion

theorem fitStep_epEndLogs_done {σ α : Type} (env : Env σ) (agent : Agent α)
    (P : FitParams) (c : FitConfig σ α) (obs : Nat)
    (hrep : (applyAction env P.action_repetition c.envState
      (agent.forward c.agentState obs).1 obs).done = true) :
    epEndLogs (fitStep env agent P c obs).1 =
      [(c.episode,
        [("episode_reward", c.episode_reward.getD 0 +
            (applyAction env P.action_repetition c.envState
              (agent.forward c.agentState obs).1 obs).reward),
         ("nb_episode_steps", Int.ofNat (c.episode_step.getD 0 + 1)),
         ("nb_steps", Int.ofNat (c.step + 1))])] := by
  rw [fitStep_done_eq env agent P c obs hrep]
  simp only [epEndLogs, List.filterMap_cons, List.filterMap_append]
  rw [← epEndLogs, applyAction_epEndLogs]
  rfl

theorem applyAction_done_env {σ : Type} (env : Env σ)
    (hdone : ∀ (s : σ) (a : Nat), (env.step s a).done = true)
    (k0 : Nat) (s : σ) (a obs : Nat) :
    (applyAction env (k0 + 1) s a obs).done = true := by
  rw [applyAction_succ_done env k0 s a obs (hdone s a)]

/-- Runs of `fit`'s loop over an environment that reports `done` on every
step: each episode takes exactly one recorded step, so each episode log
reports `nb_episode_steps = 1` and a cumulative `nb_steps` equal to the
episode index plus one. -/
theorem fitLoop_done_env_logs {σ α : Type} (env : Env σ) (agent : Agent α)
    (P : FitParams) (rng : Nat → Nat) (N : Nat)
    (hdone : ∀ (s : σ) (a : Nat), (env.step s a).done = true)
    (hNE : P.nb_episodes = some N) (hNS : P.nb_steps = none)
    (hk : 1 ≤ P.action_repetition) :
    ∀ (d : Nat) (c : FitConfig σ α),
      c.observation = none → c.episode + d = N → c.step = c.episode →
      ∃ (n : Nat) (evs : List Event) (c2 : FitConfig σ α),
        (∀ fuel, fitLoop env agent P rng (n + fuel) c = (evs, c2, true)) ∧
        ∀ p ∈ epEndLogs evs,
          List.lookup "nb_episode_steps" p.2 = some 1 ∧
          List.lookup "nb_steps" p.2 = some (Int.ofNat (p.1 + 1)) := by
  obtain ⟨k0, hk0⟩ : ∃ k0, P.action_repetition = k0 + 1 :=
    ⟨P.action_repetition - 1, by omega⟩
  intro d
  induction d with
  | zero =>
    intro c hobs hN hstep
    have hguard : fitGuard P c = false := by
      rw [fitGuard_no_steps P c N hNE hNS]
      simp
      omega
    refine ⟨0, [], c, ?_, by simp [epEndLogs]⟩
    intro fuel
    cases fuel with
    | zero => rw [fitLoop_zero, hguard]; rfl
    | succ f => rw [Nat.zero_add, fitLoop_succ_guard_false env agent P rng f c hguard]
  | succ d ih =>
    intro c hobs hN hstep
    have hep : c.episode < N := by omega
    have hguard : fitGuard P c = true := by
      rw [fitGuard_no_steps P c N hNE hNS]; simpa using hep
    obtain ⟨obs0, hobs0⟩ := episodeInit_observation_some env agent
      P.nb_max_random_start_steps rng c
    have hgetD : (episodeInit env agent
        P.nb_max_random_start_steps rng c).2.observation.getD 0 = obs0 := by
      rw [hobs0]; rfl
    obtain ⟨hf1, hf2, hf3, hf4⟩ := episodeInit_fields env agent
      P.nb_max_random_start_steps rng c
    have hrep : (applyAction env P.action_repetition
        (episodeInit env agent P.nb_max_random_start_steps rng c).2.envState
        (agent.forward (episodeInit env agent
          P.nb_max_random_start_steps rng c).2.agentState obs0).1 obs0).done
        = true := by
      rw [hk0]
      exact applyAction_done_env env hdone k0 _ _ _
    have hnext_obs : (fitStep env agent P
        (episodeInit env agent P.nb_max_random_start_steps rng c).2 obs0).2.observation
        = none := by
      rw [fitStep_done_eq env agent P _ obs0 hrep]
    have hnext_ep : (fitStep env agent P
        (episodeInit env agent P.nb_max_random_start_steps rng c).2 obs0).2.episode
        = c.episode + 1 := by
      rw [fitStep_done_eq env agent P _ obs0 hrep, hf1]
    have hnext_step : (fitStep env agent P
        (episodeInit env agent P.nb_max_random_start_steps rng c).2 obs0).2.step
        = c.step + 1 := by
      rw [fitStep_done_eq env agent P _ obs0 hrep, hf2]
    obtain ⟨nIH, evsIH, c2, htrIH, hlogsIH⟩ :=
      ih (fitStep env agent P
        (episodeInit env agent P.nb_max_random_start_steps rng c).2 obs0).2
        hnext_obs (by omega) (by rw [hnext_step, hnext_ep, hstep])
    refine ⟨1 + nIH,
      ((episodeInit env agent P.nb_max_random_start_steps rng c).1 ++
        (fitStep env agent P
          (episodeInit env agent P.nb_max_random_start_steps rng c).2 obs0).1)
        ++ evsIH, c2, ?_, ?_⟩
    · intro fuel
      have hsum : 1 + nIH + fuel = (nIH + fuel) + 1 := by omega
      rw [hsum, fitLoop_succ_guard_true env agent P rng (nIH + fuel) c hguard,
        fitBody_none_eq env agent P rng c hobs, hgetD, htrIH fuel]
    · intro p hp
      rw [epEndLogs_append, epEndLogs_append, episodeInit_epEndLogs,
        fitStep_epEndLogs_done env agent P _ obs0 hrep, hf4, hf2, hf1] at hp
      rcases List.mem_append.mp hp with hp | hp
      · rcases List.mem_singleton.mp (by simpa using hp) with rfl
        constructor
        · rfl
        · simp only [List.lookup]
          rw [hstep]
          rfl
      · exact hlogsIH p hp

theorem stepBlock_epEndLogs (t obs a : Nat) (revs : List Event) (rew : Int)
    (d : Bool) (hrevs : epEndLogs revs = []) :
    epEndLogs (Event.stepBegin t :: Event.agentForward obs a :: revs ++
      [Event.agentBackward rew d, Event.stepEnd t]) = [] := by
  simp only [epEndLogs, List.filterMap_cons, List.filterMap_append]
  rw [← epEndLogs, hrevs]
  rfl

theorem epEndLogs_cons_other (e : Event) (rest : List Event)
    (h : ∀ (i : Nat) (logs : List (String × Int)),
      e ≠ Event.episodeEnd i logs) :
    epEndLogs (e :: rest) = epEndLogs rest := by
  cases e
  case episodeEnd i logs => exact absurd rfl (h i logs)
  all_goals rfl

theorem epEndLogs_cons_end (i : Nat) (logs : List (String × Int))
    (rest : List Event) :
    epEndLogs (Event.episodeEnd i logs :: rest) =
      (i, logs) :: epEndLogs rest := rfl

/-- Runs of `test` over an environment that reports `done` on every step:
every episode ends after exactly one step, and every episode log carries
`nb_steps = 1` under that key (and no `nb_episode_steps` key at all). -/
theorem testEpisodes_done_env_logs {σ α : Type} (env : Env σ)
    (agent : Agent α) (k0 f : Nat)
    (hdone : ∀ (s : σ) (a : Nat), (env.step s a).done = true) :
    ∀ (d e : Nat) (s : σ) (ag : α),
      ∃ (evs : List Event) (s2 : σ) (ag2 : α),
        testEpisodes env agent (k0 + 1) (f + 1) d e s ag =
          some (evs, s2, ag2) ∧
        ∀ p ∈ epEndLogs evs,
          List.lookup "nb_steps" p.2 = some 1 ∧
          List.lookup "nb_episode_steps" p.2 = none := by
  intro d
  induction d with
  | zero =>
    intro e s ag
    exact ⟨[], s, ag, testEpisodes_zero env agent _ _ e s ag,
      by simp [epEndLogs]⟩
  | succ d ih =>
    intro e s ag
    have hrep : (applyAction env (k0 + 1) (env.reset s).2
        (agent.forward (agent.reset_states ag) (env.reset s).1).1
        (env.reset s).1).done = true :=
      applyAction_done_env env hdone k0 _ _ _
    obtain ⟨evsIH, s2, ag2, hIH, hlogsIH⟩ := ih (e + 1)
      (applyAction env (k0 + 1) (env.reset s).2
        (agent.forward (agent.reset_states ag) (env.reset s).1).1
        (env.reset s).1).state
      (agent.backward (agent.forward (agent.reset_states ag) (env.reset s).1).2
        (applyAction env (k0 + 1) (env.reset s).2
          (agent.forward (agent.reset_states ag) (env.reset s).1).1
          (env.reset s).1).reward true).2
    refine ⟨(Event.episodeBegin e :: Event.envReset (env.reset s).1 ::
        (Event.stepBegin 0 ::
          Event.agentForward (env.reset s).1
            (agent.forward (agent.reset_states ag) (env.reset s).1).1 ::
          (applyAction env (k0 + 1) (env.reset s).2
            (agent.forward (agent.reset_states ag) (env.reset s).1).1
            (env.reset s).1).events ++
          [Event.agentBackward (applyAction env (k0 + 1) (env.reset s).2
              (agent.forward (agent.reset_states ag) (env.reset s).1).1
              (env.reset s).1).reward true,
            Event.stepEnd 0]) ++
        [Event.episodeEnd e
          [("episode_reward", 0 + (applyAction env (k0 + 1) (env.reset s).2
              (agent.forward (agent.reset_states ag) (env.reset s).1).1
              (env.reset s).1).reward),
           ("nb_steps", Int.ofNat 1)]]) ++ evsIH, s2, ag2, ?_, ?_⟩
    · rw [testEpisodes_succ_eq,
        testEpisode_succ_done env agent (k0 + 1) f 0 0 (env.reset s).2
          (agent.reset_states ag) (env.reset s).1 hrep]
      dsimp only
      rw [hIH]
    · intro p hp
      rw [epEndLogs_append] at hp
      rcases List.mem_append.mp hp with hp | hp
      · have hblock : epEndLogs (Event.episodeBegin e ::
            Event.envReset (env.reset s).1 ::
            (Event.stepBegin 0 ::
              Event.agentForward (env.reset s).1
                (agent.forward (agent.reset_states ag) (env.reset s).1).1 ::
              (applyAction env (k0 + 1) (env.reset s).2
                (agent.forward (agent.reset_states ag) (env.reset s).1).1
                (env.reset s).1).events ++
              [Event.agentBackward (applyAction env (k0 + 1) (env.reset s).2
                  (agent.forward (agent.reset_states ag) (env.reset s).1).1
                  (env.reset s).1).reward true,
                Event.stepEnd 0]) ++
            [Event.episodeEnd e
              [("episode_reward", 0 + (applyAction env (k0 + 1) (env.reset s).2
                  (agent.forward (agent.reset_states ag) (env.reset s).1).1
                  (env.reset s).1).reward),
               ("nb_steps", Int.ofNat 1)]]) =
            [(e, [("episode_reward", 0 + (applyAction env (k0 + 1) (env.reset s).2
                (agent.forward (agent.reset_states ag) (env.reset s).1).1
                (env.reset s).1).reward),
              ("nb_steps", Int.ofNat 1)])] := by
          rw [epEndLogs_append,
            epEndLogs_cons_other (Event.episodeBegin e) _
              (fun i l h => Event.noConfusion h),
            epEndLogs_cons_other (Event.envReset (env.reset s).1) _
              (fun i l h => Event.noConfusion h),
            stepBlock_epEndLogs _ _ _ _ _ _ (applyAction_epEndLogs env _ _ _ _)]
          rfl
        rw [hblock] at hp
        rcases List.mem_singleton.mp hp with rfl
        exact ⟨rfl, rfl⟩
      · exact hlogsIH p hp

/-- C5 counterexample: on an environment that reports `done = true` on the
very first `env.step` after reset, the episode log that `test` passes to
`on_episode_end` is exactly `episode_reward, nb_steps` — it has NO
`nb_episode_steps` key (that key exists only in `fit`'s episode logs), so
the claim that the `test` log contains `nb_episode_steps = 1` is false. -/
theorem test_log_has_no_nb_episode_steps :
    epEndLogs (test doneEnv constAgent 1 1 5 () ()).1 =
      [(0, [("episode_reward", 1), ("nb_steps", 1)])] ∧
    List.lookup "nb_episode_steps"
      [(("episode_reward" : String), (1 : Int)), ("nb_steps", 1)] = none :=
  ⟨rfl, rfl⟩

/-- C5 (amended): for an environment that returns `done = true` on the
very first `env.step` after reset, the episode log passed to
`on_episode_end` by `test` contains the per-episode step count `1` under
the key `nb_steps` (and has no `nb_episode_steps` key), and in `fit` such
an episode increments the global step counter (reported as `nb_steps` in
the episode log, alongside `nb_episode_steps = 1`) exactly once, so the
cumulative `nb_steps` log of episode `e` is `e + 1`. -/
theorem first_step_done_episode_logs {σ α : Type} (env : Env σ)
    (agent : Agent α)
    (hdone : ∀ (s : σ) (a : Nat), (env.step s a).done = true)
    (hcomp : agent.compiled = true) :
    (∀ (nbEp k f : Nat) (s0 : σ) (a0 : α), 1 ≤ k →
      ∃ evs : List Event,
        test env agent nbEp k (f + 1) s0 a0 = (evs, Except.ok true) ∧
        ∀ p ∈ epEndLogs evs,
          List.lookup "nb_steps" p.2 = some 1 ∧
          List.lookup "nb_episode_steps" p.2 = none) ∧
    (∀ (N k v vs : Nat) (rng : Nat → Nat) (s0 : σ) (a0 : α), 1 ≤ k →
      ∃ (fuel : Nat) (trace : List Event) (cfg : FitConfig σ α),
        fit env agent ⟨some N, none, k, v, vs⟩ rng fuel s0 a0 =
          (trace, Except.ok (cfg, true)) ∧
        ∀ p ∈ epEndLogs trace,
          List.lookup "nb_episode_steps" p.2 = some 1 ∧
          List.lookup "nb_steps" p.2 = some (Int.ofNat (p.1 + 1))) := by
  constructor
  · intro nbEp k f s0 a0 hk
    obtain ⟨k0, hk0⟩ : ∃ k0, k = k0 + 1 := ⟨k - 1, by omega⟩
    subst hk0
    obtain ⟨evs, s2, ag2, hrun, hlogs⟩ :=
      testEpisodes_done_env_logs env agent k0 f hdone nbEp 0 s0 a0
    refine ⟨evs, ?_, hlogs⟩
    rw [test, if_neg (by simp [hcomp]), if_neg (by omega), hrun]
  · intro N k v vs rng s0 a0 hk
    obtain ⟨n, evs, c2, htr, hlogs⟩ :=
      fitLoop_done_env_logs env agent ⟨some N, none, k, v, vs⟩ rng N hdone
        rfl rfl hk N (initialFitConfig s0 a0) rfl
        (by simp [initialFitConfig]) rfl
    have hklt : ¬ ((⟨some N, none, k, v, vs⟩ : FitParams).action_repetition < 1) := by
      simp only [FitParams.mk.injEq]
      omega
    refine ⟨n + 0, Event.trainBegin :: evs ++ [Event.trainEnd], c2, ?_, ?_⟩
    · simp only [fit, hcomp, hklt, if_false]
      rw [htr 0]
      simp
    · intro p hp
      rw [epEndLogs_append,
        epEndLogs_cons_other Event.trainBegin _
          (fun i l h => Event.noConfusion h)] at hp
      rcases List.mem_append.mp hp with hp | hp
      · exact hlogs p hp
      · simp [epEndLogs] at hp

theorem first_step_done_episode_logs_witness :
    (∃ evs : List Event,
      test doneEnv constAgent 1 1 (4 + 1) () () = (evs, Except.ok true) ∧
      ∀ p ∈ epEndLogs evs,
        List.lookup "nb_steps" p.2 = some 1 ∧
        List.lookup "nb_episode_steps" p.2 = none) ∧
    (∃ (fuel : Nat) (trace : List Event) (cfg : FitConfig Unit Unit),
      fit doneEnv constAgent ⟨some 1, none, 1, 0, 1000⟩ zeroRng fuel () () =
        (trace, Except.ok (cfg, true)) ∧
      ∀ p ∈ epEndLogs trace,
        List.lookup "nb_episode_steps" p.2 = some 1 ∧
        List.lookup "nb_steps" p.2 = some (Int.ofNat (p.1 + 1))) :=
  ⟨(first_step_done_episode_logs doneEnv constAgent (fun s a => rfl) rfl).1
      1 1 4 () () (by decide),
   (first_step_done_episode_logs doneEnv constAgent (fun s a => rfl) rfl).2
      1 1 0 1000 zeroRng () () (by decide)⟩

/-- C6: calling `fit` or `test` on an agent whose `compiled` flag is false
raises the "not compiled" precondition error, and this happens before any
method of the `env` argument is invoked (the emitted trace is empty, so in
particular it contains no `env.reset`/`env.step` event). -/
theorem uncompiled_agent_errors {σ α : Type} (env : Env σ) (agent : Agent α)
    (P : FitParams) (rng : Nat → Nat) (fuel : Nat) (s0 : σ) (a0 : α)
    (nbEp k tfuel : Nat) (hcomp : agent.compiled = false) :
    fit env agent P rng fuel s0 a0 = ([], Except.error RlError.notCompiled) ∧
    test env agent nbEp k tfuel s0 a0 =
      ([], Except.error RlError.notCompiled) ∧
    (fit env agent P rng fuel s0 a0).1.countP isEnvEvent = 0 ∧
    (test env agent nbEp k tfuel s0 a0).1.countP isEnvEvent = 0 := by
  have h1 : fit env agent P rng fuel s0 a0 =
      ([], Except.error RlError.notCompiled) := by
    simp [fit, hcomp]
  have h2 : test env agent nbEp k tfuel s0 a0 =
      ([], Except.error RlError.notCompiled) := by
    simp [test, hcomp]
  exact ⟨h1, h2, by rw [h1]; rfl, by rw [h2]; rfl⟩

theorem uncompiled_agent_errors_witness :
    fit doneEnv uncompiledAgent ⟨some 1, none, 1, 0, 1000⟩ zeroRng 5 () () =
      ([], Except.error RlError.notCompiled) ∧
    test doneEnv uncompiledAgent 1 1 5 () () =
      ([], Except.error RlError.notCompiled) ∧
    (fit doneEnv uncompiledAgent ⟨some 1, none, 1, 0, 1000⟩
      zeroRng 5 () ()).1.countP isEnvEvent = 0 ∧
    (test doneEnv uncompiledAgent 1 1 5 () ()).1.countP isEnvEvent = 0 :=
  uncompiled_agent_errors doneEnv uncompiledAgent ⟨some 1, none, 1, 0, 1000⟩
    zeroRng 5 () () 1 1 5 rfl

/-- C7: calling `fit` or `test` on a compiled agent with
`action_repetition < 1` (in particular `action_repetition = 0`) raises the
invalid-argument error, and this happens before any method of the `env`
argument is invoked (the emitted trace is empty). -/
theorem invalid_action_repetition_errors {σ α : Type} (env : Env σ)
    (agent : Agent α) (P : FitParams) (rng : Nat → Nat) (fuel : Nat)
    (s0 : σ) (a0 : α) (nbEp k tfuel : Nat)
    (hcomp : agent.compiled = true)
    (hP : P.action_repetition < 1) (hk : k < 1) :
    fit env agent P rng fuel s0 a0 =
      ([], Except.error RlError.invalidActionRepetition) ∧
    test env agent nbEp k tfuel s0 a0 =
      ([], Except.error RlError.invalidActionRepetition) ∧
    (fit env agent P rng fuel s0 a0).1.countP isEnvEvent = 0 ∧
    (test env agent nbEp k tfuel s0 a0).1.countP isEnvEvent = 0 := by
  have h1 : fit env agent P rng fuel s0 a0 =
      ([], Except.error RlError.invalidActionRepetition) := by
    simp [fit, hcomp, hP]
  have h2 : test env agent nbEp k tfuel s0 a0 =
      ([], Except.error RlError.invalidActionRepetition) := by
    simp [test, hcomp, hk]
  exact ⟨h1, h2, by rw [h1]; rfl, by rw [h2]; rfl⟩

theorem invalid_action_repetition_errors_witness :
    fit doneEnv constAgent ⟨some 1, none, 0, 0, 1000⟩ zeroRng 5 () () =
      ([], Except.error RlError.invalidActionRepetition) ∧
    test doneEnv constAgent 1 0 5 () () =
      ([], Except.error RlError.invalidActionRepetition) ∧
    (fit doneEnv constAgent ⟨some 1, none, 0, 0, 1000⟩
      zeroRng 5 () ()).1.countP isEnvEvent = 0 ∧
    (test doneEnv constAgent 1 0 5 () ()).1.countP isEnvEvent = 0 :=
  invalid_action_repetition_errors doneEnv constAgent
    ⟨some 1, none, 0, 0, 1000⟩ zeroRng 5 () () 1 0 5 rfl
    (by decide) (by decide)

/-! ### Lemmas for the termination behaviour of the fit loop -/

theorem fitStep_step_inc {σ α : Type} (env : Env σ) (agent : Agent α)
    (P : FitParams) (c : FitConfig σ α) (obs : Nat) :
    (fitStep env agent P c obs).2.step = c.step + 1 := by
  cases hrep : (applyAction env P.action_repetition c.envState
      (agent.forward c.agentState obs).1 obs).done with
  | true => rw [fitStep_done_eq env agent P c obs hrep]
  | false => rw [fitStep_not_done_eq env agent P c obs hrep]

theorem fitStep_episode_le {σ α : Type} (env : Env σ) (agent : Agent α)
    (P : FitParams) (c : FitConfig σ α) (obs : Nat) :
    (fitStep env agent P c obs).2.episode ≤ c.episode + 1 := by
  cases hrep : (applyAction env P.action_repetition c.envState
      (agent.forward c.agentState obs).1 obs).done with
  | true => rw [fitStep_done_eq env agent P c obs hrep]
  | false =>
    rw [fitStep_not_done_eq env agent P c obs hrep]
    exact Nat.le_succ _

theorem fitBody_step_inc {σ α : Type} (env : Env σ) (agent : Agent α)
    (P : FitParams) (rng : Nat → Nat) (c : FitConfig σ α) :
    (fitBody env agent P rng c).2.step = c.step + 1 := by
  cases hobs : c.observation with
  | some obs =>
    rw [fitBody_some_eq env agent P rng c obs hobs]
    exact fitStep_step_inc env agent P c obs
  | none =>
    rw [fitBody_none_eq env agent P rng c hobs]
    have h2 := (episodeInit_fields env agent
      P.nb_max_random_start_steps rng c).2.1
    rw [fitStep_step_inc env agent P _ _, h2]

theorem fitBody_episode_le {σ α : Type} (env : Env σ) (agent : Agent α)
    (P : FitParams) (rng : Nat → Nat) (c : FitConfig σ α) :
    (fitBody env agent P rng c).2.episode ≤ c.episode + 1 := by
  cases hobs : c.observation with
  | some obs =>
    rw [fitBody_some_eq env agent P rng c obs hobs]
    exact fitStep_episode_le env agent P c obs
  | none =>
    rw [fitBody_none_eq env agent P rng c hobs]
    dsimp only
    have h1 := (episodeInit_fields env agent
      P.nb_max_random_start_steps rng c).1
    have := fitStep_episode_le env agent P
      (episodeInit env agent P.nb_max_random_start_steps rng c).2
      ((episodeInit env agent
        P.nb_max_random_start_steps rng c).2.observation.getD 0)
    omega

theorem fitGuard_false_of_step {σ α : Type} (P : FitParams)
    (c : FitConfig σ α) (S : Nat) (hNS : P.nb_steps = some S)
    (hS : S ≤ c.step) : fitGuard P c = false := by
  simp [fitGuard, hNS]
  omega

theorem fitLoop_completes_on_step_budget {σ α : Type} (env : Env σ)
    (agent : Agent α) (P : FitParams) (rng : Nat → Nat) (S : Nat)
    (hNS : P.nb_steps = some S) :
    ∀ (fuel : Nat) (c : FitConfig σ α), S ≤ c.step + fuel →
      (fitLoop env agent P rng fuel c).2.2 = true := by
  intro fuel
  induction fuel with
  | zero =>
    intro c hc
    rw [fitLoop_zero, fitGuard_false_of_step P c S hNS (by omega)]
    rfl
  | succ f ih =>
    intro c hc
    cases hguard : fitGuard P c with
    | false => rw [fitLoop_succ_guard_false env agent P rng f c hguard]
    | true =>
      rw [fitLoop_succ_guard_true env agent P rng f c hguard]
      exact ih (fitBody env agent P rng c).2
        (by rw [fitBody_step_inc]; omega)

theorem fitLoop_final_guard {σ α : Type} (env : Env σ) (agent : Agent α)
    (P : FitParams) (rng : Nat → Nat) :
    ∀ (fuel : Nat) (c : FitConfig σ α),
      (fitLoop env agent P rng fuel c).2.2 = true →
      fitGuard P (fitLoop env agent P rng fuel c).2.1 = false := by
  intro fuel
  induction fuel with
  | zero =>
    intro c h
    rw [fitLoop_zero] at h ⊢
    simpa using h
  | succ f ih =>
    intro c h
    cases hguard : fitGuard P c with
    | false =>
      rw [fitLoop_succ_guard_false env agent P rng f c hguard]
      exact hguard
    | true =>
      rw [fitLoop_succ_guard_true env agent P rng f c hguard] at h ⊢
      exact ih _ h

theorem fitLoop_episode_bound {σ α : Type} (env : Env σ) (agent : Agent α)
    (P : FitParams) (rng : Nat → Nat) (N : Nat) (hNE : P.nb_episodes = some N) :
    ∀ (fuel : Nat) (c : FitConfig σ α), c.episode ≤ N →
      (fitLoop env agent P rng fuel c).2.1.episode ≤ N := by
  intro fuel
  induction fuel with
  | zero => intro c hc; rw [fitLoop_zero]; exact hc
  | succ f ih =>
    intro c hc
    cases hguard : fitGuard P c with
    | false => rw [fitLoop_succ_guard_false env agent P rng f c hguard]; exact hc
    | true =>
      rw [fitLoop_succ_guard_true env agent P rng f c hguard]
      apply ih
      have hlt : c.episode < N := by
        by_contra hge
        have : fitGuard P c = false := by
          simp [fitGuard, hNE]
          intro h1
          omega
        rw [this] at hguard
        exact Bool.noConfusion hguard
      have := fitBody_episode_le env agent P rng c
      omega

theorem fitLoop_step_bound {σ α : Type} (env : Env σ) (agent : Agent α)
    (P : FitParams) (rng : Nat → Nat) (S : Nat) (hNS : P.nb_steps = some S) :
    ∀ (fuel : Nat) (c : FitConfig σ α), c.step ≤ S →
      (fitLoop env agent P rng fuel c).2.1.step ≤ S := by
  intro fuel
  induction fuel with
  | zero => intro c hc; rw [fitLoop_zero]; exact hc
  | succ f ih =>
    intro c hc
    cases hguard : fitGuard P c with
    | false => rw [fitLoop_succ_guard_false env agent P rng f c hguard]; exact hc
    | true =>
      rw [fitLoop_succ_guard_true env agent P rng f c hguard]
      apply ih
      have hlt : c.step < S := by
        by_contra hge
        have : fitGuard P c = false :=
          fitGuard_false_of_step P c S hNS (by omega)
        rw [this] at hguard
        exact Bool.noConfusion hguard
      rw [fitBody_step_inc]
      omega

theorem fitGuard_true_of_unbounded {σ α : Type} (P : FitParams)
    (c : FitConfig σ α) (hNE : P.nb_episodes = none)
    (hNS : P.nb_steps = none) : fitGuard P c = true := by
  simp [fitGuard, hNE, hNS]

theorem fitLoop_never_completes_unbounded {σ α : Type} (env : Env σ)
    (agent : Agent α) (P : FitParams) (rng : Nat → Nat)
    (hNE : P.nb_episodes = none) (hNS : P.nb_steps = none) :
    ∀ (fuel : Nat) (c : FitConfig σ α),
      (fitLoop env agent P rng fuel c).2.2 = false := by
  intro fuel
  induction fuel with
  | zero =>
    intro c
    rw [fitLoop_zero, fitGuard_true_of_unbounded P c hNE hNS]
    rfl
  | succ f ih =>
    intro c
    rw [fitLoop_succ_guard_true env agent P rng f c
      (fitGuard_true_of_unbounded P c hNE hNS)]
    exact ih _

/-- C8: the `fit` loop terminates exactly when the episode index reaches
`nb_episodes` (if given) or the global step count reaches `nb_steps` (if
given), assuming every episode of the environment reaches `done` after
finitely many steps; if both `nb_episodes` and `nb_steps` are null, the
loop never terminates (no amount of fuel completes it). -/
theorem fit_termination_conditions {σ α : Type} (env : Env σ)
    (agent : Agent α) (μ : σ → Nat)
    (hterm : ∀ (s : σ) (a : Nat),
      (env.step s a).done = false → μ (env.step s a).state < μ s)
    (hcomp : agent.compiled = true) :
    (∀ (S : Nat) (nbE : Option Nat) (k v vs : Nat) (rng : Nat → Nat)
        (s0 : σ) (a0 : α), 1 ≤ k →
      ∃ (fuel : Nat) (evs : List Event) (cfg : FitConfig σ α),
        fit env agent ⟨nbE, some S, k, v, vs⟩ rng fuel s0 a0 =
          (evs, Except.ok (cfg, true)) ∧
        ((∃ N, nbE = some N ∧ cfg.episode = N) ∨ cfg.step = S)) ∧
    (∀ (N k v vs : Nat) (rng : Nat → Nat) (s0 : σ) (a0 : α), 1 ≤ k →
      ∃ (fuel : Nat) (evs : List Event) (cfg : FitConfig σ α),
        fit env agent ⟨some N, none, k, v, vs⟩ rng fuel s0 a0 =
          (evs, Except.ok (cfg, true)) ∧
        cfg.episode = N) ∧
    (∀ (k v vs : Nat) (rng : Nat → Nat) (fuel : Nat) (s0 : σ) (a0 : α)
        (evs : List Event) (cfg : FitConfig σ α),
      fit env agent ⟨none, none, k, v, vs⟩ rng fuel s0 a0 =
        (evs, Except.ok (cfg, true)) → False) := by
  refine ⟨?_, ?_, ?_⟩
  · intro S nbE k v vs rng s0 a0 hk
    have hk2 : ¬ ((⟨nbE, some S, k, v, vs⟩ : FitParams).action_repetition < 1) := by
      show ¬ (k < 1)
      omega
    have hfin := fitLoop_completes_on_step_budget env agent
      ⟨nbE, some S, k, v, vs⟩ rng S rfl S (initialFitConfig s0 a0)
      (by simp [initialFitConfig])
    have hsplit : (fitLoop env agent ⟨nbE, some S, k, v, vs⟩ rng S
        (initialFitConfig s0 a0)).2 =
        ((fitLoop env agent ⟨nbE, some S, k, v, vs⟩ rng S
          (initialFitConfig s0 a0)).2.1, true) := Prod.ext rfl hfin
    refine ⟨S, Event.trainBegin :: (fitLoop env agent ⟨nbE, some S, k, v, vs⟩
        rng S (initialFitConfig s0 a0)).1 ++ [Event.trainEnd],
      (fitLoop env agent ⟨nbE, some S, k, v, vs⟩ rng S
        (initialFitConfig s0 a0)).2.1, ?_, ?_⟩
    · simp only [fit, hcomp, hk2, if_false]
      rw [hsplit]
      simp
    · have hguard := fitLoop_final_guard env agent
        ⟨nbE, some S, k, v, vs⟩ rng S (initialFitConfig s0 a0) hfin
      have hstepb := fitLoop_step_bound env agent ⟨nbE, some S, k, v, vs⟩
        rng S rfl S (initialFitConfig s0 a0) (by simp [initialFitConfig])
      cases nbE with
      | none =>
        right
        simp only [fitGuard] at hguard
        simp at hguard
        omega
      | some N =>
        have hepb := fitLoop_episode_bound env agent
          ⟨some N, some S, k, v, vs⟩ rng N rfl S (initialFitConfig s0 a0)
          (by simp [initialFitConfig])
        simp only [fitGuard] at hguard
        rcases Bool.and_eq_false_iff.mp hguard with h1 | h1
        · left
          refine ⟨N, rfl, ?_⟩
          simp at h1
          omega
        · right
          simp at h1
          omega
  · intro N k v vs rng s0 a0 hk
    obtain ⟨n, evs, c2, htr, hc2, hbeg, hend, htb, hte, hrw⟩ :=
      fitLoop_episodes_run env agent ⟨some N, none, k, v, vs⟩ rng μ N hterm
        rfl rfl hk N (initialFitConfig s0 a0) rfl (by simp [initialFitConfig])
    have hk2 : ¬ ((⟨some N, none, k, v, vs⟩ : FitParams).action_repetition < 1) := by
      show ¬ (k < 1)
      omega
    refine ⟨n + 0, Event.trainBegin :: (evs ++ [Event.trainEnd]), c2, ?_, hc2⟩
    simp only [fit, hcomp, hk2, if_false]
    rw [htr 0]
    simp
  · intro k v vs rng fuel s0 a0 evs cfg h
    have hnever := fitLoop_never_completes_unbounded env agent
      ⟨none, none, k, v, vs⟩ rng rfl rfl fuel (initialFitConfig s0 a0)
    by_cases hk2 : (⟨none, none, k, v, vs⟩ : FitParams).action_repetition < 1
    · rw [fit] at h
      rw [if_neg (by simp [hcomp]), if_pos hk2] at h
      exact Except.noConfusion (congrArg Prod.snd h)
    · rw [fit, if_neg (by simp [hcomp]), if_neg hk2] at h
      have h2 := congrArg Prod.snd h
      simp only [Except.ok.injEq] at h2
      have h3 := congrArg Prod.snd h2
      rw [hnever] at h3
      exact Bool.noConfusion h3

theorem fit_termination_conditions_witness :
    (∃ (fuel : Nat) (evs : List Event) (cfg : FitConfig Unit Unit),
      fit doneEnv constAgent ⟨none, some 3, 1, 0, 1000⟩ zeroRng fuel () () =
        (evs, Except.ok (cfg, true)) ∧
      ((∃ N, (none : Option Nat) = some N ∧ cfg.episode = N) ∨
        cfg.step = 3)) ∧
    (∃ (fuel : Nat) (evs : List Event) (cfg : FitConfig Unit Unit),
      fit doneEnv constAgent ⟨some 2, none, 1, 0, 1000⟩ zeroRng fuel () () =
        (evs, Except.ok (cfg, true)) ∧
      cfg.episode = 2) :=
  ⟨(fit_termination_conditions doneEnv constAgent (fun _ => 0)
      (fun s a h => by simp [doneEnv] at h) rfl).1 3 none 1 0 1000
      zeroRng () () (by decide),
   (fit_termination_conditions doneEnv constAgent (fun _ => 0)
      (fun s a h => by simp [doneEnv] at h) rfl).2.1 2 1 0 1000
      zeroRng () () (by decide)⟩

/-- C9: when `fit` or `test` is called without an explicit `callbacks`
argument, the logger and visualizer callbacks they append are added in
place to the shared mutable default list bound to the `callbacks`
parameter: the list used by the call is the current default list plus the
appended loggers, the default list after the call retains them
(accumulating one batch of loggers per call, so its length grows by the
batch size on every such call), and a call made with an explicit
`callbacks` list leaves the default list untouched. -/
theorem mutable_default_callbacks_accumulate (nbE : Option Nat)
    (verbose log_interval : Nat) (visualize : Bool) :
    (∀ n, fitDefaultListAfter nbE verbose log_interval visualize (n + 1) =
      fitDefaultListAfter nbE verbose log_interval visualize n ++
        fitLoggerAppends nbE verbose log_interval visualize) ∧
    (∀ n, (fitCallbackSetup
        (fitDefaultListAfter nbE verbose log_interval visualize n) none
        nbE verbose log_interval visualize).1 =
      fitDefaultListAfter nbE verbose log_interval visualize n ++
        fitLoggerAppends nbE verbose log_interval visualize) ∧
    (∀ n, (fitDefaultListAfter nbE verbose log_interval visualize n).length =
      n * (fitLoggerAppends nbE verbose log_interval visualize).length) ∧
    (∀ dl l, (fitCallbackSetup dl (some l) nbE verbose log_interval
      visualize).2 = dl) ∧
    (∀ n, testDefaultListAfter visualize (n + 1) =
      testDefaultListAfter visualize n ++ testLoggerAppends visualize) ∧
    (∀ n, (testCallbackSetup (testDefaultListAfter visualize n) none
        visualize).1 =
      testDefaultListAfter visualize n ++ testLoggerAppends visualize) ∧
    (∀ n, (testDefaultListAfter visualize n).length =
      n * (testLoggerAppends visualize).length) ∧
    (∀ dl l, (testCallbackSetup dl (some l) visualize).2 = dl) := by
  refine ⟨fun n => rfl, fun n => rfl, ?_, fun dl l => rfl,
    fun n => rfl, fun n => rfl, ?_, fun dl l => rfl⟩
  · intro n
    induction n with
    | zero => simp [fitDefaultListAfter]
    | succ m ih =>
      have hstep : fitDefaultListAfter nbE verbose log_interval visualize
          (m + 1) = fitDefaultListAfter nbE verbose log_interval visualize m
          ++ fitLoggerAppends nbE verbose log_interval visualize := rfl
      rw [hstep, List.length_append, ih, Nat.succ_mul]
  · intro n
    induction n with
    | zero => simp [testDefaultListAfter]
    | succ m ih =>
      have hstep : testDefaultListAfter visualize (m + 1) =
          testDefaultListAfter visualize m ++ testLoggerAppends visualize := rfl
      rw [hstep, List.length_append, ih, Nat.succ_mul]

/-- C10: the `validation_size` parameter of `fit` has no effect on `fit`'s
behaviour: two runs identical in every other argument and in the
agent/environment state produce identical results (trace of env calls,
agent calls and callback notifications, outcome, and final state). -/
theorem validation_size_no_effect {σ α : Type} (env : Env σ)
    (agent : Agent α) (nbE nbS : Option Nat) (k v : Nat) (rng : Nat → Nat)
    (fuel : Nat) (s0 : σ) (a0 : α) (v1 v2 : Nat) :
    fit env agent ⟨nbE, nbS, k, v, v1⟩ rng fuel s0 a0 =
      fit env agent ⟨nbE, nbS, k, v, v2⟩ rng fuel s0 a0 := by
  have hguard : ∀ c : FitConfig σ α,
      fitGuard ⟨nbE, nbS, k, v, v1⟩ c = fitGuard ⟨nbE, nbS, k, v, v2⟩ c :=
    fun c => rfl
  have hbody : ∀ c : FitConfig σ α,
      fitBody env agent ⟨nbE, nbS, k, v, v1⟩ rng c =
        fitBody env agent ⟨nbE, nbS, k, v, v2⟩ rng c :=
    fun c => rfl
  have hloop : ∀ (f : Nat) (c : FitConfig σ α),
      fitLoop env agent ⟨nbE, nbS, k, v, v1⟩ rng f c =
        fitLoop env agent ⟨nbE, nbS, k, v, v2⟩ rng f c := by
    intro f
    induction f with
    | zero => intro c; rfl
    | succ f ih =>
      intro c
      cases hg : fitGuard ⟨nbE, nbS, k, v, v1⟩ c with
      | true =>
        rw [fitLoop_succ_guard_true env agent _ rng f c hg,
          fitLoop_succ_guard_true env agent _ rng f c
            ((hguard c).symm.trans hg),
          hbody, ih]
      | false =>
        rw [fitLoop_succ_guard_false env agent _ rng f c hg,
          fitLoop_succ_guard_false env agent _ rng f c
            ((hguard c).symm.trans hg)]
  simp only [fit]
  rw [hloop]
